import Mathlib

/-! movie_db: pager window, infinite-scroll accumulator, URL state, search debounce

A shallow embedding of

* `generatePageNumbers` and the render guard of `Pagination`
  (`src/components/Pagination.js`),
* `loadMoreMovies`, `loadInitialMovies` and the load-more trigger effect of
  `InfiniteScrollMovies` (`src/components/InfiniteScrollMovies.js`),
* the URL state of `Home` (`src/pages/Home.js`): `urlSearchQuery`,
  `currentPage`, `updateURLParams`, `handleSearch`, `handlePageChange`, the
  reset-to-page-1 effect, and `fetchMovies`,
* the debounce effect and the handlers of `SearchBar`
  (`src/components/SearchBar.js`), with time counted in milliseconds.

JavaScript numbers are modelled as `Int` (all quantities involved are small
integers), arrays as `List`, React state as an explicit record that is passed
from one step to the next, and an awaited catalog call as a pair of steps
(start / settle) around an explicit outcome.
-/

namespace MovieDb

/-! ## Pager window (`Pagination.js`) -/

/-- One entry of the pager window: a page number, or the `'...'` marker. -/
inductive PageEntry where
  | page (n : Int)
  | dots
  deriving DecidableEq, Repr

/-- `Array.from({ length: len }, (_, i) => f i)`; a negative length gives the
empty array. -/
def arrayFrom (len : Int) (f : Int → PageEntry) : List PageEntry :=
  (List.range len.toNat).map (fun (i : Nat) => f (i : Int))

/-- `const totalPageNumbers = siblingCount * 2 + 3 + boundaryCount * 2;` -/
def totalPageNumbers (siblingCount boundaryCount : Int) : Int :=
  siblingCount * 2 + 3 + boundaryCount * 2

/-- `Math.max(currentPage - siblingCount, boundaryCount)` -/
def leftSiblingIndex (currentPage siblingCount boundaryCount : Int) : Int :=
  max (currentPage - siblingCount) boundaryCount

/-- `Math.min(currentPage + siblingCount, totalPages - boundaryCount)` -/
def rightSiblingIndex (currentPage totalPages siblingCount boundaryCount : Int) : Int :=
  min (currentPage + siblingCount) (totalPages - boundaryCount)

/-- `leftSiblingIndex > boundaryCount + 2` -/
def showLeftDots (currentPage siblingCount boundaryCount : Int) : Bool :=
  decide (leftSiblingIndex currentPage siblingCount boundaryCount > boundaryCount + 2)

/-- `rightSiblingIndex < totalPages - boundaryCount - 1` -/
def showRightDots (currentPage totalPages siblingCount boundaryCount : Int) : Bool :=
  decide (rightSiblingIndex currentPage totalPages siblingCount boundaryCount
    < totalPages - boundaryCount - 1)

/-- The closure `generatePageNumbers` of `Pagination`, with the props it reads
as arguments.  `none` is JavaScript's `undefined`, the value of a call that
leaves the function body without reaching a `return`. -/
def generatePageNumbers (currentPage totalPages siblingCount boundaryCount : Int) :
    Option (List PageEntry) :=
  if totalPages ≤ totalPageNumbers siblingCount boundaryCount then
    some (arrayFrom totalPages (fun i => .page (i + 1)))
  else
    let left := leftSiblingIndex currentPage siblingCount boundaryCount
    let right := rightSiblingIndex currentPage totalPages siblingCount boundaryCount
    let showLeft := showLeftDots currentPage siblingCount boundaryCount
    let showRight := showRightDots currentPage totalPages siblingCount boundaryCount
    if !showLeft && showRight then
      let leftItemCount := 3 + 2 * siblingCount + boundaryCount
      some (arrayFrom leftItemCount (fun i => .page (i + 1))
        ++ [.dots]
        ++ arrayFrom boundaryCount (fun i => .page (totalPages - boundaryCount + i + 1)))
    else if showLeft && !showRight then
      let rightItemCount := 3 + 2 * siblingCount + boundaryCount
      some (arrayFrom boundaryCount (fun i => .page (i + 1))
        ++ [.dots]
        ++ arrayFrom rightItemCount (fun i => .page (totalPages - rightItemCount + i + 1)))
    else if showLeft && showRight then
      let middleNumbers := arrayFrom (right - left + 1) (fun i => .page (left + i))
      some (arrayFrom boundaryCount (fun i => .page (i + 1))
        ++ [.dots]
        ++ middleNumbers
        ++ [.dots]
        ++ arrayFrom boundaryCount (fun i => .page (totalPages - boundaryCount + i + 1)))
    else
      none

/-- The page entries that `Pagination` puts on screen: nothing when the
component returns `null` (`if (totalPages <= 1) return null;`), otherwise the
entries of `pageNumbers?.map(...)`, which is nothing for `undefined`. -/
def Pagination (currentPage totalPages siblingCount boundaryCount : Int) : List PageEntry :=
  let pageNumbers := generatePageNumbers currentPage totalPages siblingCount boundaryCount
  if totalPages ≤ 1 then [] else pageNumbers.getD []

/-- The pages `first, first + 1, ..., first + count - 1` as window entries. -/
def pageRun (first : Int) (count : Nat) : List PageEntry :=
  (List.range count).map (fun (i : Nat) => PageEntry.page (first + (i : Int)))


/-! ## Infinite accumulator (`InfiniteScrollMovies.js`) -/

/-- A catalog item.  The component reads only `id` and `title` (for the React
key); every other field is passed through untouched. -/
structure Movie where
  id : Int
  title : String
  deriving DecidableEq, Repr

/-- Body of a catalog response (`response.data`). -/
structure PageData where
  results : List Movie
  total_pages : Int
  total_results : Int
  deriving DecidableEq, Repr

/-- How an awaited catalog call ends: the promise resolves with a body, or it
rejects (`movieAPI` rethrows every transport error). -/
inductive FetchOutcome where
  | resolved (data : PageData)
  | rejected
  deriving DecidableEq, Repr

/-- A request handed to `movieAPI`. -/
inductive CatalogCall where
  | searchMovies (query : String) (page : Int)
  | getTopRatedMovies (page : Int)
  | getUpcomingMovies (page : Int)
  | getPopularMovies (page : Int)
  deriving DecidableEq, Repr

/-- The `if (searchQuery) ... else switch (type) ...` block shared by
`loadMoreMovies` and `loadInitialMovies`: which `movieAPI` function is called
for a page.  The empty string is the only falsy `searchQuery`. -/
def catalogCall (type searchQuery : String) (page : Int) : CatalogCall :=
  if searchQuery ≠ "" then .searchMovies searchQuery page
  else if type = "top-rated" then .getTopRatedMovies page
  else if type = "upcoming" then .getUpcomingMovies page
  else .getPopularMovies page

/-- The `useState` cells of `InfiniteScrollMovies`. -/
structure AccState where
  movies : List Movie
  page : Int
  hasMore : Bool
  loading : Bool
  initialLoading : Bool
  error : Option String
  deriving DecidableEq, Repr

/-- The initial values passed to `useState`. -/
def AccState.init : AccState :=
  { movies := [], page := 1, hasMore := true, loading := false,
    initialLoading := true, error := none }

/-- `loadMoreMovies` up to its `await`: the guard, `setLoading(true)`,
`setError(null)` and the request for `nextPage = page + 1`.  The result is the
state after these updates and the request issued, if any. -/
def loadMoreMoviesStart (type searchQuery : String) (s : AccState) :
    AccState × Option CatalogCall :=
  if s.loading || !s.hasMore then (s, none)
  else
    let nextPage := s.page + 1
    ({ s with loading := true, error := none }, some (catalogCall type searchQuery nextPage))

/-- `loadMoreMovies` after its `await`, for the `nextPage` computed before the
call: the `try` body on a resolved promise, the `catch` block on a rejected
one, then `finally`.  `s` is the state at the time the promise settles
(`setMovies` uses a functional update). -/
def loadMoreMoviesSettle (nextPage : Int) (outcome : FetchOutcome) (s : AccState) : AccState :=
  match outcome with
  | .resolved data =>
    if data.results.length = 0 then
      { s with hasMore := false, loading := false }
    else
      { s with
        movies := s.movies ++ data.results
        page := nextPage
        hasMore := decide (nextPage < data.total_pages) && decide (nextPage < 500)
        loading := false }
  | .rejected =>
    { s with error := some "Failed to load more movies", loading := false }

/-- One whole run of `loadMoreMovies` against a catalog that answers every
request: the final state and the requests issued. -/
def loadMoreMovies (catalog : CatalogCall → FetchOutcome) (type searchQuery : String)
    (s : AccState) : AccState × List CatalogCall :=
  match loadMoreMoviesStart type searchQuery s with
  | (s1, none) => (s1, [])
  | (s1, some call) => (loadMoreMoviesSettle (s.page + 1) (catalog call) s1, [call])

/-- The load-more trigger effect:
`if (inView && hasMore && !loading) { loadMoreMovies(); }`, up to the `await`. -/
def loadMoreTrigger (inView : Bool) (type searchQuery : String) (s : AccState) :
    AccState × Option CatalogCall :=
  if inView && s.hasMore && !s.loading then loadMoreMoviesStart type searchQuery s
  else (s, none)

/-- `loadInitialMovies` up to its `await`. -/
def loadInitialMoviesStart (type searchQuery : String) (s : AccState) :
    AccState × CatalogCall :=
  ({ s with initialLoading := true, error := none }, catalogCall type searchQuery 1)

/-- `loadInitialMovies` after its `await`. -/
def loadInitialMoviesSettle (outcome : FetchOutcome) (s : AccState) : AccState :=
  match outcome with
  | .resolved data =>
    { s with
      movies := data.results
      page := 1
      hasMore := decide (data.total_pages > 1) && decide (data.total_pages < 500)
      initialLoading := false }
  | .rejected =>
    { s with error := some "Failed to load movies", initialLoading := false }

/-- One whole run of `loadInitialMovies` against a catalog that answers every
request: the final state and the request issued.  The effect that calls it
runs on mount and whenever `type` or `searchQuery` changes. -/
def loadInitialMovies (catalog : CatalogCall → FetchOutcome) (type searchQuery : String)
    (s : AccState) : AccState × List CatalogCall :=
  match loadInitialMoviesStart type searchQuery s with
  | (s1, call) => (loadInitialMoviesSettle (catalog call) s1, [call])

/-- The `page` argument of a catalog request. -/
def CatalogCall.page : CatalogCall → Int
  | .searchMovies _ page => page
  | .getTopRatedMovies page => page
  | .getUpcomingMovies page => page
  | .getPopularMovies page => page

/-- A completed call of one of the two loaders, with the way its request
ended. -/
inductive AccEvent where
  | initialLoad (type searchQuery : String) (outcome : FetchOutcome)
  | loadMore (type searchQuery : String) (outcome : FetchOutcome)
  deriving DecidableEq, Repr

/-- The state after a completed loader call and the requests it issued. -/
def AccEvent.apply (s : AccState) : AccEvent → AccState × List CatalogCall
  | .initialLoad type searchQuery outcome =>
    loadInitialMovies (fun _ => outcome) type searchQuery s
  | .loadMore type searchQuery outcome =>
    loadMoreMovies (fun _ => outcome) type searchQuery s

/-- A sequence of completed loader calls, with all requests issued, in order. -/
def runEvents : AccState → List AccEvent → AccState × List CatalogCall
  | s, [] => (s, [])
  | s, e :: es =>
    let r1 := e.apply s
    let r2 := runEvents r1.1 es
    (r2.1, r1.2 ++ r2.2)

/-- The load-more signal repeated while `hasMore` holds, at most `fuel` times:
each signal is one whole run of `loadMoreMovies`. -/
def loadUntilExhausted (catalog : CatalogCall → FetchOutcome) (type searchQuery : String) :
    Nat → AccState → AccState × List CatalogCall
  | 0, s => (s, [])
  | fuel + 1, s =>
    if s.hasMore then
      let r1 := loadMoreMovies catalog type searchQuery s
      let r2 := loadUntilExhausted catalog type searchQuery fuel r1.1
      (r2.1, r1.2 ++ r2.2)
    else (s, [])

/-- A browsing session: mount (initial load from the `useState` defaults), then
load-more signals until exhausted. -/
def browseSession (catalog : CatalogCall → FetchOutcome) (type searchQuery : String)
    (fuel : Nat) : AccState × List CatalogCall :=
  let r1 := loadInitialMovies catalog type searchQuery AccState.init
  let r2 := loadUntilExhausted catalog type searchQuery fuel r1.1
  (r2.1, r1.2 ++ r2.2)

/-- Twenty distinct items for catalog page `p`. -/
def twentyMovies (p : Int) : List Movie :=
  (List.range 20).map (fun (i : Nat) => { id := 20 * (p - 1) + (i : Int), title := "movie" })

/-- A catalog for the category `popular` that reports `totalPages` pages, has
twenty items on each of the pages 1, 2, 3 and none on any other page. -/
def threePageCatalog (totalPages : Int) : CatalogCall → FetchOutcome
  | .getPopularMovies p =>
    .resolved
      { results := if 1 ≤ p ∧ p ≤ 3 then twentyMovies p else []
        total_pages := totalPages
        total_results := 60 }
  | _ => .rejected

/-! ## Paged controller: URL state (`Home.js`) -/

/-- The tuple list of a `URLSearchParams` object (names may repeat). -/
abbrev URLSearchParams := List (String × String)

/-- `params.get(name)`: the value of the first tuple with that name, `none` for
`null`. -/
def URLSearchParams.get (params : URLSearchParams) (name : String) : Option String :=
  (params.find? (fun e => e.1 = name)).map (fun e => e.2)

/-- `params.has(name)`. -/
def URLSearchParams.has (params : URLSearchParams) (name : String) : Bool :=
  params.any (fun e => e.1 = name)

/-- `params.delete(name)`: removes every tuple with that name. -/
def URLSearchParams.delete (params : URLSearchParams) (name : String) : URLSearchParams :=
  params.filter (fun e => e.1 ≠ name)

/-- `params.set(name, value)`: overwrites the first tuple with that name and
removes the others, or appends a new tuple. -/
def URLSearchParams.set : URLSearchParams → String → String → URLSearchParams
  | [], name, value => [(name, value)]
  | e :: rest, name, value =>
    if e.1 = name then (name, value) :: URLSearchParams.delete rest name
    else e :: URLSearchParams.set rest name value

/-- `StrWhiteSpaceChar` of ECMAScript: white space and line terminators. -/
def isStrWhiteSpaceChar (c : Char) : Bool :=
  [9, 10, 11, 12, 13, 32, 160, 5760, 8232, 8233, 8239, 8287, 12288, 65279].contains c.toNat
    || (decide (8192 ≤ c.toNat) && decide (c.toNat ≤ 8202))

/-- Value of a decimal digit character. -/
def decimalDigit? (c : Char) : Option Nat :=
  if 48 ≤ c.toNat ∧ c.toNat ≤ 57 then some (c.toNat - 48) else none

/-- Value of a digit character in the given radix (10 or 16). -/
def radixDigit? (radix : Nat) (c : Char) : Option Nat :=
  if radix = 16 then
    if 48 ≤ c.toNat ∧ c.toNat ≤ 57 then some (c.toNat - 48)
    else if 97 ≤ c.toNat ∧ c.toNat ≤ 102 then some (c.toNat - 87)
    else if 65 ≤ c.toNat ∧ c.toNat ≤ 70 then some (c.toNat - 55)
    else none
  else decimalDigit? c

/-- The values of the longest run of digits at the start of the text. -/
def leadingDigits (digit? : Char → Option Nat) : List Char → List Nat
  | [] => []
  | c :: cs =>
    match digit? c with
    | some d => d :: leadingDigits digit? cs
    | none => []

/-- Step 3-5 of `parseInt`: an optional sign. -/
def stripSign : List Char → Int × List Char
  | [] => (1, [])
  | c :: r => if c = '-' then (-1, r) else if c = '+' then (1, r) else (1, c :: r)

/-- Step 9-10 of `parseInt` without a radix argument: a `0x` / `0X` marker
selects radix 16, otherwise the radix is 10. -/
def stripHexMarker : List Char → Nat × List Char
  | c0 :: c1 :: r =>
    if c0 = '0' ∧ (c1 = 'x' ∨ c1 = 'X') then (16, r) else (10, c0 :: c1 :: r)
  | S => (10, S)

/-- `parseInt` on the characters of its argument: leading white space is
skipped, then sign, radix marker and the longest run of digits are read;
`none` is `NaN` (no digit).  Values are exact integers (no rounding to a
double). -/
def parseIntChars (cs : List Char) : Option Int :=
  let signed := stripSign (cs.dropWhile isStrWhiteSpaceChar)
  let marked := stripHexMarker signed.2
  let Z := leadingDigits (radixDigit? marked.1) marked.2
  if Z.isEmpty then none
  else some (signed.1 * ((Z.foldl (fun acc d => acc * marked.1 + d) 0 : Nat) : Int))

/-- `parseInt(v)` for `v` a string or `null`; `null` is first converted to the
string `"null"`. -/
def parseInt (v : Option String) : Option Int :=
  match v with
  | some str => parseIntChars str.toList
  | none => parseIntChars "null".toList

/-- The character of a decimal digit. -/
def digitChar (d : Nat) : Char := Char.ofNat (48 + d)

/-- Decimal digits of `n`, most significant first (`fuel > n` is enough). -/
def decimalDigits : Nat → Nat → List Nat
  | 0, _ => []
  | fuel + 1, n => if n < 10 then [n] else decimalDigits fuel (n / 10) ++ [n % 10]

/-- The significant digits of a digit list: the trailing zeros removed. -/
def significantDigits (ds : List Nat) : List Nat :=
  (ds.reverse.dropWhile (fun d => decide (d = 0))).reverse

/-- Exponent form of a number with decimal digits `ds` (most significant
first): first significant digit, then `.` and the other significant digits if
there are any, then `e+` and the decimal exponent `ds.length - 1`. -/
def exponentChars (ds : List Nat) : List Char :=
  let mantissa :=
    match significantDigits ds with
    | [] => []
    | [d] => [digitChar d]
    | d :: rest => digitChar d :: '.' :: rest.map digitChar
  mantissa ++ 'e' :: '+' :: (decimalDigits ds.length (ds.length - 1)).map digitChar

/-- `Number.prototype.toString` on a non-negative integer `m`: below `1e21` the
decimal digits of `m`, from `1e21` on exponent form (`1e+21` for `10^21`). -/
def unsignedToString (m : Nat) : List Char :=
  if m < 1000000000000000000000 then (decimalDigits (m + 1) m).map digitChar
  else exponentChars (decimalDigits (m + 1) m)

/-- `n.toString()` for an integer-valued number `n`; a negative number prints
as `-` followed by the text of its absolute value.  JavaScript prints the
shortest digits that read back as the same number; these are all digits of `n`
up to `2^53`, and beyond that for the numbers that have few significant digits,
such as `10^21`. -/
def numberToString (n : Int) : String :=
  match n with
  | .ofNat m => String.mk (unsignedToString m)
  | .negSucc m => String.mk ('-' :: unsignedToString (m + 1))

/-- `const urlSearchQuery = searchParams.get('search') || '';` -/
def urlSearchQuery (searchParams : URLSearchParams) : String :=
  match searchParams.get "search" with
  | some v => if v ≠ "" then v else ""
  | none => ""

/-- `const currentPage = parseInt(searchParams.get('page')) || 1;`
(`NaN` and `0` are falsy). -/
def currentPage (searchParams : URLSearchParams) : Int :=
  match parseInt (searchParams.get "page") with
  | some n => if n ≠ 0 then n else 1
  | none => 1

/-- `updateURLParams(updates)`: the parameters passed to `setSearchParams`.
`updates` is the entry list of the object literal; all callers pass string
values, and a string is truthy when it is not empty. -/
def updateURLParams (searchParams : URLSearchParams) (updates : List (String × String)) :
    URLSearchParams :=
  let newParams := updates.foldl
    (fun (acc : URLSearchParams) e =>
      if e.2 ≠ "" then acc.set e.1 e.2 else acc.delete e.1)
    searchParams
  if (updates.lookup "search").isSome then newParams.set "page" "1" else newParams

/-- `handleSearch(query)`: `updateURLParams({ search: query })`. -/
def handleSearch (searchParams : URLSearchParams) (query : String) : URLSearchParams :=
  updateURLParams searchParams [("search", query)]

/-- `handlePageChange(newPage)`: `updateURLParams({ page: newPage.toString() })`. -/
def handlePageChange (searchParams : URLSearchParams) (newPage : Int) : URLSearchParams :=
  updateURLParams searchParams [("page", numberToString newPage)]

/-- The go-to-page input of `Pagination`: on `Enter` the text of the input is
parsed and `onPageChange(page)` (here `handlePageChange`) is called only when
`page >= 1 && page <= totalPages`; comparisons with `NaN` are false. -/
def goToPageInput (key value : String) (totalPages : Int) (searchParams : URLSearchParams) :
    URLSearchParams :=
  if key = "Enter" then
    match parseInt (some value) with
    | some page =>
      if page ≥ 1 ∧ page ≤ totalPages then handlePageChange searchParams page
      else searchParams
    | none => searchParams
  else searchParams

/-- The reset-to-page-1 effect of `Home`:
`if (urlSearchQuery && currentPage !== 1) updateURLParams({ page: '1' })`. -/
def resetEffect (searchParams : URLSearchParams) : URLSearchParams :=
  if urlSearchQuery searchParams ≠ "" ∧ currentPage searchParams ≠ 1 then
    updateURLParams searchParams [("page", "1")]
  else searchParams

/-! ## Paged controller: fetching (`Home.js`) -/

/-- The `useState` cells of `Home` that `fetchMovies` writes. -/
structure HomeState where
  movies : List Movie
  loading : Bool
  totalPages : Int
  totalResults : Int
  deriving DecidableEq, Repr

/-- The initial values passed to `useState`. -/
def HomeState.init : HomeState :=
  { movies := [], loading := true, totalPages := 0, totalResults := 0 }

/-- `fetchMovies` up to its `await`: `setLoading(true)` and the request for
`pageToFetch = currentPage`. -/
def fetchMoviesStart (type : String) (searchParams : URLSearchParams) (s : HomeState) :
    HomeState × CatalogCall :=
  let pageToFetch := currentPage searchParams
  ({ s with loading := true }, catalogCall type (urlSearchQuery searchParams) pageToFetch)

/-- `fetchMovies` after its `await`: the `try` body on a resolved promise, the
`catch` block on a rejected one, then `finally`. -/
def fetchMoviesSettle (outcome : FetchOutcome) (s : HomeState) : HomeState :=
  match outcome with
  | .resolved data =>
    { s with
      movies := data.results
      totalPages := if data.total_pages > 500 then 500 else data.total_pages
      totalResults := data.total_results
      loading := false }
  | .rejected =>
    { s with movies := [], totalPages := 0, totalResults := 0, loading := false }

/-- One whole run of `fetchMovies` against a catalog that answers every
request: the final state and the request issued. -/
def fetchMovies (catalog : CatalogCall → FetchOutcome) (type : String)
    (searchParams : URLSearchParams) (s : HomeState) : HomeState × List CatalogCall :=
  match fetchMoviesStart type searchParams s with
  | (s1, call) => (fetchMoviesSettle (catalog call) s1, [call])

/-- The paged controller between events: the URL parameters, the state cells
and the requests that have been issued and have not settled yet. -/
structure HomeConfig where
  searchParams : URLSearchParams
  state : HomeState
  pending : List CatalogCall
  deriving DecidableEq, Repr

/-- What can happen to the paged controller. -/
inductive HomeEvent where
  | setSearch (term : String)
  | setPage (n : Int)
  | respond (call : CatalogCall) (outcome : FetchOutcome)
  deriving DecidableEq, Repr

/-- The fetch effect `useEffect(() => { fetchMovies(); }, [fetchMovies])` after
the URL changed from `before` to `cfg.searchParams`: `fetchMovies` is rebuilt,
and so called, when `urlSearchQuery` or `currentPage` changed. -/
def fetchEffect (type : String) (before : URLSearchParams) (cfg : HomeConfig) : HomeConfig :=
  if urlSearchQuery cfg.searchParams ≠ urlSearchQuery before
      ∨ currentPage cfg.searchParams ≠ currentPage before then
    let r := fetchMoviesStart type cfg.searchParams cfg.state
    { cfg with state := r.1, pending := cfg.pending ++ [r.2] }
  else cfg

/-- A render with new URL parameters: the fetch effect, then the
reset-to-page-1 effect and, when that one changed the URL, the fetch effect of
the following render. -/
def navigate (type : String) (cfg : HomeConfig) (searchParams : URLSearchParams) :
    HomeConfig :=
  let cfg1 := fetchEffect type cfg.searchParams { cfg with searchParams := searchParams }
  fetchEffect type searchParams { cfg1 with searchParams := resetEffect searchParams }

/-- One event of the paged controller.  A settling request runs the rest of
its `fetchMovies` call on the current state; nothing in that code looks at the
key the request was issued for. -/
def HomeConfig.step (type : String) (cfg : HomeConfig) : HomeEvent → HomeConfig
  | .setSearch term => navigate type cfg (handleSearch cfg.searchParams term)
  | .setPage n => navigate type cfg (handlePageChange cfg.searchParams n)
  | .respond call outcome =>
    if call ∈ cfg.pending then
      { cfg with state := fetchMoviesSettle outcome cfg.state, pending := cfg.pending.erase call }
    else cfg

/-- A sequence of events of the paged controller. -/
def HomeConfig.run (type : String) : HomeConfig → List HomeEvent → HomeConfig
  | cfg, [] => cfg
  | cfg, e :: es => HomeConfig.run type (cfg.step type e) es

/-! ## Debounced search input (`SearchBar.js`) -/

/-- The pending `setTimeout` of the debounce effect: the time left in ms and
the `query` and `isTyping` values its callback closed over. -/
structure DebounceTimer where
  remaining : Nat
  query : String
  isTyping : Bool
  deriving DecidableEq, Repr

/-- The `useState` cells of `SearchBar` and its single timer slot. -/
structure SearchBarState where
  query : String
  isTyping : Bool
  timer : Option DebounceTimer
  deriving DecidableEq, Repr

/-- The first render: `useState(initialQuery)`, `useState(false)`, and the
effect starts its first timer. -/
def SearchBarState.mount (initialQuery : String) : SearchBarState :=
  { query := initialQuery, isTyping := false, timer := some ⟨500, initialQuery, false⟩ }

/-- The debounce effect after a state update from `old` to `new`: when `query`
or `isTyping` changed, the cleanup clears the pending timer and a new 500 ms
timer closing over the new values is started. -/
def runEffect (old new : SearchBarState) : SearchBarState :=
  if old.query ≠ new.query ∨ old.isTyping ≠ new.isTyping then
    { new with timer := some ⟨500, new.query, new.isTyping⟩ }
  else new

/-- `handleChange`: `setQuery(e.target.value); setIsTyping(true);`. -/
def handleChange (value : String) (s : SearchBarState) : SearchBarState :=
  runEffect s { s with query := value, isTyping := true }

/-- `handleSubmit`: `onSearch(query); setIsTyping(false);`, with the `onSearch`
calls made. -/
def handleSubmit (s : SearchBarState) : SearchBarState × List String :=
  (runEffect s { s with isTyping := false }, [s.query])

/-- `clearSearch`: `setQuery(''); onSearch(''); setIsTyping(false);`. -/
def clearSearch (s : SearchBarState) : SearchBarState × List String :=
  (runEffect s { s with query := "", isTyping := false }, [""])

/-- A render caused by the parent with a new `onSearch` function: the effect
runs again and restarts the timer with the current values. -/
def parentRender (s : SearchBarState) : SearchBarState :=
  { s with timer := some ⟨500, s.query, s.isTyping⟩ }

/-- Teardown of the component: the cleanup `clearTimeout(timer)`. -/
def unmount (s : SearchBarState) : SearchBarState :=
  { s with timer := none }

/-- The callback of timer `t` when it expires:
`if (isTyping) { onSearch(query); setIsTyping(false); }` on the values it
closed over.  The expired timer leaves the slot. -/
def timerCallback (t : DebounceTimer) (s : SearchBarState) : SearchBarState × List String :=
  if t.isTyping then
    (runEffect s { s with isTyping := false, timer := none }, [t.query])
  else ({ s with timer := none }, [])

/-- Time passing for `ms` milliseconds with no other event: the pending timer
counts down and fires when it expires; the timer started by that firing
counts down for the rest of the time. -/
def elapseAux : Nat → Nat → SearchBarState → SearchBarState × List String
  | 0, _, s => (s, [])
  | fuel + 1, ms, s =>
    match s.timer with
    | none => (s, [])
    | some t =>
      if ms < t.remaining then
        ({ s with timer := some { t with remaining := t.remaining - ms } }, [])
      else
        let r1 := timerCallback t s
        let r2 := elapseAux fuel (ms - t.remaining) r1.1
        (r2.1, r1.2 ++ r2.2)

/-- Time passing; a firing starts at most one further timer of 500 ms, and that
one calls nothing and starts none, so three rounds cover every case. -/
def elapse (ms : Nat) (s : SearchBarState) : SearchBarState × List String :=
  elapseAux 3 ms s

/-- A burst of keystrokes: before each one `gap` ms pass, then `handleChange`
runs with the new text.  The result carries the `onSearch` calls made. -/
def typeBurst : List (Nat × String) → SearchBarState → SearchBarState × List String
  | [], s => (s, [])
  | (gap, text) :: rest, s =>
    let r1 := elapse gap s
    let r2 := typeBurst rest (handleChange text r1.1)
    (r2.1, r1.2 ++ r2.2)

/-- Every keystroke of the burst changes the text of the input (the browser
reports a change only then). -/
def changesText : String → List (Nat × String) → Bool
  | _, [] => true
  | current, (_, text) :: rest => decide (text ≠ current) && changesText text rest

/-- The text after the burst. -/
def lastText : String → List (Nat × String) → String
  | current, [] => current
  | _, (_, text) :: rest => lastText text rest

/-- What can happen to a mounted `SearchBar`. -/
inductive BarEvent where
  | change (value : String)
  | wait (ms : Nat)
  | submit
  | clear
  | parentRender
  deriving DecidableEq, Repr

/-- One event of the search bar, with the `onSearch` calls it makes. -/
def BarEvent.apply (s : SearchBarState) : BarEvent → SearchBarState × List String
  | .change value => (handleChange value s, [])
  | .wait ms => elapse ms s
  | .submit => handleSubmit s
  | .clear => clearSearch s
  | .parentRender => (MovieDb.parentRender s, [])

/-- A sequence of events of the search bar, with all `onSearch` calls. -/
def runBar : SearchBarState → List BarEvent → SearchBarState × List String
  | s, [] => (s, [])
  | s, e :: es =>
    let r1 := e.apply s
    let r2 := runBar r1.1 es
    (r2.1, r1.2 ++ r2.2)

/-! ## Page numbers of a window -/

/-- The page numbers of a window, ellipsis entries left out. -/
def pageNumbers : List PageEntry → List Int
  | [] => []
  | .page n :: rest => n :: pageNumbers rest
  | .dots :: rest => pageNumbers rest

/-- The mirror image of an entry in a pager of `totalPages` pages. -/
def mirrorEntry (totalPages : Int) : PageEntry → PageEntry
  | .page n => .page (totalPages + 1 - n)
  | .dots => .dots

/-! ## Shape of the window -/

theorem length_pageRun (a : Int) (n : Nat) : (pageRun a n).length = n := by
  simp [pageRun]

theorem getElem?_pageRun (a : Int) (n i : Nat) :
    (pageRun a n)[i]? = if i < n then some (PageEntry.page (a + (i : Int))) else none := by
  unfold pageRun
  by_cases h : i < n
  · simp [h, List.getElem?_range h]
  · have h2 : (List.range n)[i]? = none := by
      apply List.getElem?_eq_none
      simpa using Nat.le_of_not_lt h
    simp [h, h2]

theorem mem_pageRun (a : Int) (n : Nat) (x : PageEntry) :
    x ∈ pageRun a n ↔ ∃ i : Nat, i < n ∧ x = PageEntry.page (a + (i : Int)) := by
  unfold pageRun
  constructor
  · intro h
    obtain ⟨i, hi, rfl⟩ := List.mem_map.1 h
    exact ⟨i, List.mem_range.1 hi, rfl⟩
  · rintro ⟨i, hi, rfl⟩
    exact List.mem_map.2 ⟨i, List.mem_range.2 hi, rfl⟩

theorem dots_not_mem_pageRun (a : Int) (n : Nat) : PageEntry.dots ∉ pageRun a n := by
  intro h
  obtain ⟨i, _, hi⟩ := (mem_pageRun a n _).1 h
  cases hi

theorem arrayFrom_succ (len : Int) :
    arrayFrom len (fun i => PageEntry.page (i + 1)) = pageRun 1 len.toNat := by
  unfold arrayFrom pageRun
  apply List.map_congr_left
  intro i _
  simp [add_comm]

theorem arrayFrom_offset_succ (len c : Int) :
    arrayFrom len (fun i => PageEntry.page (c + i + 1)) = pageRun (c + 1) len.toNat := by
  unfold arrayFrom pageRun
  apply List.map_congr_left
  intro i _
  show PageEntry.page (c + (i : Int) + 1) = PageEntry.page (c + 1 + (i : Int))
  rw [add_right_comm]

theorem arrayFrom_offset (len c : Int) :
    arrayFrom len (fun i => PageEntry.page (c + i)) = pageRun c len.toNat := by
  rfl

/-- Entry `i` of `front, '...', run`. -/
theorem getElem?_append_dots_run (X : List PageEntry) (a' : Int) (m i : Nat) :
    (X ++ [PageEntry.dots] ++ pageRun a' m)[i]? =
      if i < X.length then X[i]?
      else if i = X.length then some PageEntry.dots
      else if i < X.length + 1 + m then
        some (PageEntry.page (a' + ((i - (X.length + 1) : Nat) : Int)))
      else none := by
  rw [List.append_assoc, List.getElem?_append]
  split
  · rfl
  · rename_i h
    rw [List.singleton_append, List.getElem?_cons]
    split
    · rename_i h0
      have : i = X.length := by omega
      simp [this]
    · rename_i h0
      have h1 : ¬ i = X.length := by omega
      rw [getElem?_pageRun]
      simp only [h1, if_false]
      have e : i - X.length - 1 = i - (X.length + 1) := by omega
      rw [e]
      by_cases h2 : i < X.length + 1 + m
      · have h3 : i - (X.length + 1) < m := by omega
        simp [h2, h3]
      · have h3 : ¬ i - (X.length + 1) < m := by omega
        simp [h2, h3]

/-- Entry `i` of a window `run, '...', run`. -/
theorem getElem?_run_dots_run (a a' : Int) (n m i : Nat) :
    (pageRun a n ++ [PageEntry.dots] ++ pageRun a' m)[i]? =
      if i < n then some (PageEntry.page (a + (i : Int)))
      else if i = n then some PageEntry.dots
      else if i < n + 1 + m then some (PageEntry.page (a' + ((i - (n + 1) : Nat) : Int)))
      else none := by
  rw [getElem?_append_dots_run, length_pageRun, getElem?_pageRun]
  by_cases h : i < n
  · simp [h]
  · simp [h]

/-- In `run, '...', run` with non-empty runs the marker sits at one index, with
the last page of the first run before it and the first page of the second run
after it. -/
theorem dots_in_run_dots_run (a a' : Int) (n m i : Nat) (hn : 1 ≤ n) (hm : 1 ≤ m)
    (hi : (pageRun a n ++ [PageEntry.dots] ++ pageRun a' m)[i]? = some PageEntry.dots) :
    i = n ∧
    (pageRun a n ++ [PageEntry.dots] ++ pageRun a' m)[i - 1]? =
      some (PageEntry.page (a + (n : Int) - 1)) ∧
    (pageRun a n ++ [PageEntry.dots] ++ pageRun a' m)[i + 1]? =
      some (PageEntry.page a') := by
  have hin : i = n := by
    rw [getElem?_run_dots_run] at hi
    by_contra hne
    by_cases h1 : i < n
    · simp [h1] at hi
    · by_cases h2 : i < n + 1 + m
      · simp [h1, hne, h2] at hi
      · simp [h1, hne, h2] at hi
  subst hin
  refine ⟨rfl, ?_, ?_⟩
  · rw [getElem?_run_dots_run, if_pos (by omega)]
    congr 2
    omega
  · rw [getElem?_run_dots_run, if_neg (by omega), if_neg (by omega), if_pos (by omega)]
    simp

/-- The same for `run, '...', run, '...', run`: two markers, each between two
pages. -/
theorem dots_in_five (a a' a'' : Int) (n k m i : Nat) (hn : 1 ≤ n) (hk : 1 ≤ k) (hm : 1 ≤ m)
    (hi : (pageRun a n ++ [PageEntry.dots] ++ pageRun a' k ++ [PageEntry.dots]
      ++ pageRun a'' m)[i]? = some PageEntry.dots) :
    (i = n ∧
      (pageRun a n ++ [PageEntry.dots] ++ pageRun a' k ++ [PageEntry.dots]
        ++ pageRun a'' m)[i - 1]? = some (PageEntry.page (a + (n : Int) - 1)) ∧
      (pageRun a n ++ [PageEntry.dots] ++ pageRun a' k ++ [PageEntry.dots]
        ++ pageRun a'' m)[i + 1]? = some (PageEntry.page a')) ∨
    (i = n + 1 + k ∧
      (pageRun a n ++ [PageEntry.dots] ++ pageRun a' k ++ [PageEntry.dots]
        ++ pageRun a'' m)[i - 1]? = some (PageEntry.page (a' + (k : Int) - 1)) ∧
      (pageRun a n ++ [PageEntry.dots] ++ pageRun a' k ++ [PageEntry.dots]
        ++ pageRun a'' m)[i + 1]? = some (PageEntry.page a'')) := by
  have hlen : (pageRun a n ++ [PageEntry.dots] ++ pageRun a' k).length = n + 1 + k := by
    simp only [List.length_append, length_pageRun, List.length_singleton]
  have key := getElem?_append_dots_run (pageRun a n ++ [PageEntry.dots] ++ pageRun a' k) a'' m
  rw [hlen] at key
  rw [key] at hi
  by_cases h1 : i < n + 1 + k
  · rw [if_pos h1] at hi
    obtain ⟨hin, hp, hq⟩ := dots_in_run_dots_run a a' n k i hn hk hi
    left
    refine ⟨hin, ?_, ?_⟩
    · rw [key, if_pos (by omega)]; exact hp
    · rw [key, if_pos (by omega)]; exact hq
  · have h2 : i = n + 1 + k := by
      by_contra hne
      by_cases h3 : i < n + 1 + k + 1 + m
      · simp [h1, hne, h3] at hi
      · simp [h1, hne, h3] at hi
    subst h2
    right
    refine ⟨rfl, ?_, ?_⟩
    · rw [key, if_pos (by omega), getElem?_run_dots_run, if_neg (by omega), if_neg (by omega),
        if_pos (by omega)]
      congr 2
      omega
    · rw [key, if_neg (by omega), if_neg (by omega), if_pos (by omega)]
      simp

theorem showLeftDots_iff (c s b : Int) :
    showLeftDots c s b = true ↔ b + 2 < c - s := by
  unfold showLeftDots leftSiblingIndex
  rw [decide_eq_true_iff]
  constructor
  · intro h
    rcases max_cases (c - s) b with ⟨h1, _⟩ | ⟨h1, _⟩ <;> omega
  · intro h
    rcases max_cases (c - s) b with ⟨h1, _⟩ | ⟨h1, _⟩ <;> omega

theorem showRightDots_iff (c t s b : Int) :
    showRightDots c t s b = true ↔ c + s < t - b - 1 := by
  unfold showRightDots rightSiblingIndex
  rw [decide_eq_true_iff]
  constructor
  · intro h
    rcases min_cases (c + s) (t - b) with ⟨h1, _⟩ | ⟨h1, _⟩ <;> omega
  · intro h
    rcases min_cases (c + s) (t - b) with ⟨h1, _⟩ | ⟨h1, _⟩ <;> omega

/-- Above the span at least one of the two ellipsis tests succeeds. -/
theorem dots_needed (c t s b : Int) (ht : totalPageNumbers s b < t) :
    showLeftDots c s b = true ∨ showRightDots c t s b = true := by
  rw [showLeftDots_iff, showRightDots_iff]
  unfold totalPageNumbers at ht
  omega

/-- The three windows `generatePageNumbers` can build above the span, each with
the condition on `currentPage` under which it is chosen. -/
theorem generatePageNumbers_shape (c t s b : Int) (ht : totalPageNumbers s b < t) :
    (c ≤ s + b + 2 ∧ generatePageNumbers c t s b =
        some (pageRun 1 (3 + 2 * s + b).toNat ++ [PageEntry.dots]
          ++ pageRun (t - b + 1) b.toNat)) ∨
    (t - b - 1 - s ≤ c ∧ generatePageNumbers c t s b =
        some (pageRun 1 b.toNat ++ [PageEntry.dots]
          ++ pageRun (t - (3 + 2 * s + b) + 1) (3 + 2 * s + b).toNat)) ∨
    (b + 2 < c - s ∧ c + s < t - b - 1 ∧ generatePageNumbers c t s b =
        some (pageRun 1 b.toNat ++ [PageEntry.dots] ++ pageRun (c - s) (2 * s + 1).toNat
          ++ [PageEntry.dots] ++ pageRun (t - b + 1) b.toNat)) := by
  have hspan : ¬ t ≤ totalPageNumbers s b := not_le.2 ht
  have hany := dots_needed c t s b ht
  unfold generatePageNumbers
  simp only [hspan, if_false]
  by_cases hl : showLeftDots c s b = true
  · by_cases hr : showRightDots c t s b = true
    · right; right
      have hl2 := (showLeftDots_iff c s b).1 hl
      have hr2 := (showRightDots_iff c t s b).1 hr
      have eL : leftSiblingIndex c s b = c - s := by
        unfold leftSiblingIndex; exact max_eq_left (by omega)
      have eR : rightSiblingIndex c t s b = c + s := by
        unfold rightSiblingIndex; exact min_eq_left (by omega)
      refine ⟨hl2, hr2, ?_⟩
      simp only [hl, hr, eL, eR, arrayFrom_succ, arrayFrom_offset_succ, arrayFrom_offset]
      have e : c + s - (c - s) + 1 = 2 * s + 1 := by ring
      rw [e]
      simp
    · right; left
      have hr2 : ¬ c + s < t - b - 1 := fun h => hr ((showRightDots_iff c t s b).2 h)
      have hr3 : showRightDots c t s b = false := by simpa using hr
      refine ⟨by omega, ?_⟩
      simp only [hl, hr3, arrayFrom_succ, arrayFrom_offset_succ]
      simp
  · left
    have hl2 : ¬ b + 2 < c - s := fun h => hl ((showLeftDots_iff c s b).2 h)
    have hl3 : showLeftDots c s b = false := by simpa using hl
    have hr : showRightDots c t s b = true := by
      rcases hany with h | h
      · exact absurd h hl
      · exact h
    refine ⟨by omega, ?_⟩
    simp only [hl3, hr, arrayFrom_succ, arrayFrom_offset_succ]
    simp

theorem pageRun_append (a : Int) (n m : Nat) :
    pageRun a (n + m) = pageRun a n ++ pageRun (a + (n : Int)) m := by
  unfold pageRun
  rw [List.range_add, List.map_append, List.map_map]
  congr 1
  apply List.map_congr_left
  intro i _
  simp [add_assoc]

theorem pageRun_eq_range' (n : Nat) :
    pageRun 1 n = (List.range' 1 n).map (fun (k : Nat) => PageEntry.page (k : Int)) := by
  unfold pageRun
  rw [List.range'_eq_map_range, List.map_map]
  apply List.map_congr_left
  intro i _
  simp

theorem mem_pageRun_of_bounds (a p : Int) (n : Nat) (h1 : a ≤ p) (h2 : p < a + (n : Int)) :
    PageEntry.page p ∈ pageRun a n := by
  rw [mem_pageRun]
  refine ⟨(p - a).toNat, by omega, ?_⟩
  congr 1
  omega

/-- Above the span (with `siblingCount ≥ 0`, `boundaryCount ≥ 1`) every marker
of the window has a page on each side, and the two pages differ by at least
two. -/
theorem window_dots_between (c t s b : Int) (hs : 0 ≤ s) (hb : 1 ≤ b)
    (ht : totalPageNumbers s b < t) :
    ∃ w, generatePageNumbers c t s b = some w ∧
      ∀ i : Nat, w[i]? = some PageEntry.dots →
        ∃ p q : Int, 1 ≤ i ∧ w[i - 1]? = some (PageEntry.page p) ∧
          w[i + 1]? = some (PageEntry.page q) ∧ q - p ≥ 2 := by
  have hspan : s * 2 + 3 + b * 2 < t := ht
  rcases generatePageNumbers_shape c t s b ht with ⟨_, hw⟩ | ⟨_, hw⟩ | ⟨hl, hr, hw⟩
  · refine ⟨_, hw, ?_⟩
    intro i hi
    obtain ⟨hin, hp, hq⟩ := dots_in_run_dots_run _ _ _ _ i (by omega) (by omega) hi
    exact ⟨_, _, by omega, hp, hq, by omega⟩
  · refine ⟨_, hw, ?_⟩
    intro i hi
    obtain ⟨hin, hp, hq⟩ := dots_in_run_dots_run _ _ _ _ i (by omega) (by omega) hi
    exact ⟨_, _, by omega, hp, hq, by omega⟩
  · refine ⟨_, hw, ?_⟩
    intro i hi
    rcases dots_in_five _ _ _ _ _ _ i (by omega) (by omega) (by omega) hi with
      ⟨hin, hp, hq⟩ | ⟨hin, hp, hq⟩
    · exact ⟨_, _, by omega, hp, hq, by omega⟩
    · exact ⟨_, _, by omega, hp, hq, by omega⟩

/-- Above the span the window starts with the pages `1..boundaryCount` and ends
with the pages `totalPages - boundaryCount + 1 .. totalPages`. -/
theorem window_boundaries (c t s b : Int) (hs : 0 ≤ s) (hb : 1 ≤ b)
    (ht : totalPageNumbers s b < t) :
    ∃ w, generatePageNumbers c t s b = some w ∧
      pageRun 1 b.toNat <+: w ∧ pageRun (t - b + 1) b.toNat <:+ w := by
  have e : (3 + 2 * s + b).toNat = b.toNat + (3 + 2 * s).toNat := by omega
  have e' : (3 + 2 * s + b).toNat = (3 + 2 * s).toNat + b.toNat := by omega
  rcases generatePageNumbers_shape c t s b ht with ⟨_, hw⟩ | ⟨_, hw⟩ | ⟨hl, hr, hw⟩
  · refine ⟨_, hw, ?_, ?_⟩
    · rw [e, pageRun_append]
      simp only [List.append_assoc]
      exact List.prefix_append _ _
    · exact List.suffix_append _ _
  · refine ⟨_, hw, ?_, ?_⟩
    · simp only [List.append_assoc]
      exact List.prefix_append _ _
    · rw [e', pageRun_append]
      have e2 : t - (3 + 2 * s + b) + 1 + (((3 + 2 * s).toNat : Nat) : Int) = t - b + 1 := by
        omega
      rw [e2, ← List.append_assoc]
      exact List.suffix_append _ _
  · refine ⟨_, hw, ?_, ?_⟩
    · simp only [List.append_assoc]
      exact List.prefix_append _ _
    · exact List.suffix_append _ _

/-! ## The pager window: claims -/

/-- C1: when `0 ≤ totalPages ≤ siblingCount*2 + 3 + boundaryCount*2`,
`generatePageNumbers` returns exactly the pages `1, 2, ..., totalPages` in
order (so the window has `totalPages` entries) and no ellipsis entry, for every
current page and every sibling and boundary count. -/
theorem generatePageNumbers_small_total (c t s b : Int) (h0 : 0 ≤ t)
    (ht : t ≤ s * 2 + 3 + b * 2) :
    ∃ w, generatePageNumbers c t s b = some w ∧
      w = (List.range' 1 t.toNat).map (fun (k : Nat) => PageEntry.page (k : Int)) ∧
      (w.length : Int) = t ∧
      PageEntry.dots ∉ w := by
  have hspan : t ≤ totalPageNumbers s b := ht
  refine ⟨pageRun 1 t.toNat, ?_, pageRun_eq_range' _, ?_, dots_not_mem_pageRun _ _⟩
  · unfold generatePageNumbers
    rw [if_pos hspan, arrayFrom_succ]
  · rw [length_pageRun]
    omega

theorem generatePageNumbers_small_total_witness :
    (0 : Int) ≤ 5 ∧ (5 : Int) ≤ 1 * 2 + 3 + 1 * 2 ∧
    ∃ w, generatePageNumbers 3 5 1 1 = some w ∧
      w = (List.range' 1 (5 : Int).toNat).map (fun (k : Nat) => PageEntry.page (k : Int)) ∧
      (w.length : Int) = 5 ∧
      PageEntry.dots ∉ w :=
  ⟨by decide, by decide, generatePageNumbers_small_total 3 5 1 1 (by decide) (by decide)⟩

/-- C2: for all integers with `totalPages > siblingCount*2 + 3 + boundaryCount*2`
at least one of `showLeftDots`, `showRightDots` is true, so one of the three
ellipsis branches of `generatePageNumbers` is taken and the call returns a
window, never `undefined`. -/
theorem generatePageNumbers_never_undefined (c t s b : Int)
    (ht : s * 2 + 3 + b * 2 < t) :
    (showLeftDots c s b = true ∨ showRightDots c t s b = true) ∧
    ∃ w, generatePageNumbers c t s b = some w := by
  refine ⟨dots_needed c t s b ht, ?_⟩
  rcases generatePageNumbers_shape c t s b ht with ⟨_, hw⟩ | ⟨_, hw⟩ | ⟨_, _, hw⟩
  · exact ⟨_, hw⟩
  · exact ⟨_, hw⟩
  · exact ⟨_, hw⟩

theorem generatePageNumbers_never_undefined_witness :
    ((2 : Int) * 2 + 3 + 1 * 2 < 10) ∧
    (showLeftDots 5 2 1 = true ∨ showRightDots 5 10 2 1 = true) ∧
    ∃ w, generatePageNumbers 5 10 2 1 = some w :=
  ⟨by decide, generatePageNumbers_never_undefined 5 10 2 1 (by decide)⟩

/-- C3: for `siblingCount ≥ 0`, `boundaryCount ≥ 1`,
`totalPages > siblingCount*2 + 3 + boundaryCount*2` and `1 ≤ currentPage ≤ totalPages`,
every ellipsis entry of the window has a page number `p` immediately before it
and a page number `q` immediately after it with `q - p ≥ 2`: it hides at least
one page. -/
theorem ellipsis_hides_a_page (c t s b : Int) (hs : 0 ≤ s) (hb : 1 ≤ b)
    (ht : s * 2 + 3 + b * 2 < t) (_hc1 : 1 ≤ c) (_hc2 : c ≤ t) :
    ∃ w, generatePageNumbers c t s b = some w ∧
      ∀ i : Nat, w[i]? = some PageEntry.dots →
        ∃ p q : Int, 1 ≤ i ∧ w[i - 1]? = some (PageEntry.page p) ∧
          w[i + 1]? = some (PageEntry.page q) ∧ q - p ≥ 2 :=
  window_dots_between c t s b hs hb ht

theorem ellipsis_hides_a_page_witness :
    (0 : Int) ≤ 1 ∧ (1 : Int) ≤ 1 ∧ ((1 : Int) * 2 + 3 + 1 * 2 < 8) ∧ (1 : Int) ≤ 4 ∧
    (4 : Int) ≤ 8 ∧
    ∃ w, generatePageNumbers 4 8 1 1 = some w ∧
      ∀ i : Nat, w[i]? = some PageEntry.dots →
        ∃ p q : Int, 1 ≤ i ∧ w[i - 1]? = some (PageEntry.page p) ∧
          w[i + 1]? = some (PageEntry.page q) ∧ q - p ≥ 2 :=
  ⟨by decide, by decide, by decide, by decide, by decide,
    ellipsis_hides_a_page 4 8 1 1 (by decide) (by decide) (by decide) (by decide) (by decide)⟩

/-- C4: for `siblingCount ≥ 0`, `boundaryCount ≥ 1`, `totalPages ≥ 1` and
`1 ≤ currentPage ≤ totalPages`, the window never has two ellipsis entries next
to each other, and when it has an ellipsis it starts with the pages
`1..boundaryCount` and ends with the pages
`totalPages - boundaryCount + 1 .. totalPages`. -/
theorem window_no_adjacent_dots_and_boundaries (c t s b : Int) (hs : 0 ≤ s) (hb : 1 ≤ b)
    (_ht : 1 ≤ t) (_hc1 : 1 ≤ c) (_hc2 : c ≤ t) :
    ∃ w, generatePageNumbers c t s b = some w ∧
      (∀ i : Nat, ¬ (w[i]? = some PageEntry.dots ∧ w[i + 1]? = some PageEntry.dots)) ∧
      (PageEntry.dots ∈ w →
        pageRun 1 b.toNat <+: w ∧ pageRun (t - b + 1) b.toNat <:+ w ∧
        (pageRun 1 b.toNat).length = b ∧ (pageRun (t - b + 1) b.toNat).length = b) := by
  by_cases hspan : t ≤ totalPageNumbers s b
  · have hno : PageEntry.dots ∉ pageRun 1 t.toNat := dots_not_mem_pageRun _ _
    refine ⟨pageRun 1 t.toNat, ?_, ?_, ?_⟩
    · unfold generatePageNumbers
      rw [if_pos hspan, arrayFrom_succ]
    · rintro i ⟨hi, _⟩
      exact hno (List.getElem?_mem hi)
    · intro h
      exact absurd h hno
  · have ht2 : totalPageNumbers s b < t := not_le.1 hspan
    obtain ⟨w, hw, hgap⟩ := window_dots_between c t s b hs hb ht2
    obtain ⟨w2, hw2, hpre, hsuf⟩ := window_boundaries c t s b hs hb ht2
    have hww : w2 = w := Option.some.inj (hw2.symm.trans hw)
    subst hww
    refine ⟨w2, hw, ?_, ?_⟩
    · rintro i ⟨hi, hi2⟩
      obtain ⟨p, q, _, _, hq, _⟩ := hgap i hi
      rw [hq] at hi2
      cases hi2
    · intro _
      refine ⟨hpre, hsuf, ?_, ?_⟩
      · rw [length_pageRun]; omega
      · rw [length_pageRun]; omega

theorem window_no_adjacent_dots_and_boundaries_witness :
    (0 : Int) ≤ 1 ∧ (1 : Int) ≤ 2 ∧ (1 : Int) ≤ 30 ∧ (1 : Int) ≤ 15 ∧ (15 : Int) ≤ 30 ∧
    ∃ w, generatePageNumbers 15 30 1 2 = some w ∧
      (∀ i : Nat, ¬ (w[i]? = some PageEntry.dots ∧ w[i + 1]? = some PageEntry.dots)) ∧
      (PageEntry.dots ∈ w →
        pageRun 1 (2 : Int).toNat <+: w ∧ pageRun (30 - 2 + 1) (2 : Int).toNat <:+ w ∧
        (pageRun 1 (2 : Int).toNat).length = (2 : Int) ∧
        (pageRun (30 - 2 + 1) (2 : Int).toNat).length = (2 : Int)) :=
  ⟨by decide, by decide, by decide, by decide, by decide,
    window_no_adjacent_dots_and_boundaries 15 30 1 2 (by decide) (by decide) (by decide)
      (by decide) (by decide)⟩

/-- C5: for `siblingCount ≥ 0`, `boundaryCount ≥ 1`,
`totalPages > siblingCount*2 + 3 + boundaryCount*2` and `1 ≤ currentPage ≤ totalPages`,
the window contains the current page and every page `p` of the sibling range
`leftSiblingIndex ≤ p ≤ rightSiblingIndex` as a page-number entry, whichever
ellipsis branch is taken. -/
theorem window_contains_current_and_siblings (c t s b : Int) (hs : 0 ≤ s) (hb : 1 ≤ b)
    (ht : s * 2 + 3 + b * 2 < t) (hc1 : 1 ≤ c) (hc2 : c ≤ t) :
    ∃ w, generatePageNumbers c t s b = some w ∧
      PageEntry.page c ∈ w ∧
      ∀ p : Int, leftSiblingIndex c s b ≤ p → p ≤ rightSiblingIndex c t s b →
        PageEntry.page p ∈ w := by
  have hL1 : c - s ≤ leftSiblingIndex c s b := le_max_left _ _
  have hL2 : b ≤ leftSiblingIndex c s b := le_max_right _ _
  have hR1 : rightSiblingIndex c t s b ≤ c + s := min_le_left _ _
  have hR2 : rightSiblingIndex c t s b ≤ t - b := min_le_right _ _
  rcases generatePageNumbers_shape c t s b ht with ⟨hc, hw⟩ | ⟨hc, hw⟩ | ⟨hl, hr, hw⟩
  · refine ⟨_, hw, ?_, ?_⟩
    · apply List.mem_append_left
      apply List.mem_append_left
      exact mem_pageRun_of_bounds _ _ _ (by omega) (by omega)
    · intro p h1 h2
      apply List.mem_append_left
      apply List.mem_append_left
      exact mem_pageRun_of_bounds _ _ _ (by omega) (by omega)
  · refine ⟨_, hw, ?_, ?_⟩
    · apply List.mem_append_right
      exact mem_pageRun_of_bounds _ _ _ (by omega) (by omega)
    · intro p h1 h2
      apply List.mem_append_right
      exact mem_pageRun_of_bounds _ _ _ (by omega) (by omega)
  · refine ⟨_, hw, ?_, ?_⟩
    · apply List.mem_append_left
      apply List.mem_append_left
      apply List.mem_append_right
      exact mem_pageRun_of_bounds _ _ _ (by omega) (by omega)
    · intro p h1 h2
      apply List.mem_append_left
      apply List.mem_append_left
      apply List.mem_append_right
      exact mem_pageRun_of_bounds _ _ _ (by omega) (by omega)

theorem window_contains_current_and_siblings_witness :
    (0 : Int) ≤ 2 ∧ (1 : Int) ≤ 1 ∧ ((2 : Int) * 2 + 3 + 1 * 2 < 40) ∧ (1 : Int) ≤ 38 ∧
    (38 : Int) ≤ 40 ∧
    ∃ w, generatePageNumbers 38 40 2 1 = some w ∧
      PageEntry.page 38 ∈ w ∧
      ∀ p : Int, leftSiblingIndex 38 2 1 ≤ p → p ≤ rightSiblingIndex 38 40 2 1 →
        PageEntry.page p ∈ w :=
  ⟨by decide, by decide, by decide, by decide, by decide,
    window_contains_current_and_siblings 38 40 2 1 (by decide) (by decide) (by decide)
      (by decide) (by decide)⟩

/-- C6: `generatePageNumbers` with `currentPage = 50`, `totalPages = 500`,
`siblingCount = 1`, `boundaryCount = 1` returns exactly
`[1, '...', 49, 50, 51, '...', 500]`. -/
theorem generatePageNumbers_50_of_500 :
    generatePageNumbers 50 500 1 1 =
      some [.page 1, .dots, .page 49, .page 50, .page 51, .dots, .page 500] := by
  decide

/-- C7: `generatePageNumbers` with `currentPage = 1`, `totalPages = 10`,
`siblingCount = 1`, `boundaryCount = 1` returns `[1, 2, 3, 4, 5, 6, '...', 10]`:
the left-ellipsis test fails, the window has exactly one ellipsis, that ellipsis
is the entry just before the last entry, the last entry is page 10, and the
entries before the ellipsis are the consecutive pages starting at 1. -/
theorem generatePageNumbers_1_of_10 :
    ∃ w, generatePageNumbers 1 10 1 1 = some w ∧
      w = [.page 1, .page 2, .page 3, .page 4, .page 5, .page 6, .dots, .page 10] ∧
      showLeftDots 1 1 1 = false ∧
      w.count PageEntry.dots = 1 ∧
      w[w.length - 2]? = some PageEntry.dots ∧
      w[w.length - 1]? = some (PageEntry.page 10) ∧
      w.take (w.length - 2) = pageRun 1 (w.length - 2) := by
  refine ⟨_, rfl, ?_, ?_, ?_, ?_, ?_, ?_⟩ <;> decide

/-- C8 fails for `generatePageNumbers`: with `totalPages = 1` (and the default
`siblingCount = 1`, `boundaryCount = 1`) it returns the one-entry window `[1]`,
not the empty window. -/
theorem generatePageNumbers_one_page_not_empty :
    generatePageNumbers 1 1 1 1 = some [PageEntry.page 1] ∧
    ¬ (∀ c t s b : Int, t ≤ 1 → generatePageNumbers c t s b = some []) := by
  refine ⟨by decide, ?_⟩
  intro h
  exact absurd (h 1 1 1 1 (by decide)) (by decide)

/-- C8, amended: for every `totalPages ≤ 1` and every current page, sibling
count and boundary count, the `Pagination` component puts no page entry on
screen (it returns `null`); `generatePageNumbers` itself, for
`siblingCount ≥ 0` and `boundaryCount ≥ 0`, returns the empty window when
`totalPages ≤ 0` and the window `[1]` when `totalPages = 1`. -/
theorem pagination_suppressed_for_single_page (c t s b : Int) (ht : t ≤ 1) :
    Pagination c t s b = [] ∧
    (0 ≤ s → 0 ≤ b →
      generatePageNumbers c t s b = some (if t = 1 then [PageEntry.page 1] else [])) := by
  refine ⟨?_, ?_⟩
  · unfold Pagination
    simp [ht]
  · intro hs hb
    have hspan : t ≤ totalPageNumbers s b := by
      unfold totalPageNumbers
      omega
    unfold generatePageNumbers
    rw [if_pos hspan, arrayFrom_succ]
    by_cases h1 : t = 1
    · subst h1
      simp [pageRun, List.range_succ]
    · have h0 : t.toNat = 0 := by omega
      simp [h1, h0, pageRun]

theorem pagination_suppressed_for_single_page_witness :
    (1 : Int) ≤ 1 ∧ Pagination 1 1 1 1 = [] ∧
    ((0 : Int) ≤ 1 → (0 : Int) ≤ 1 →
      generatePageNumbers 1 1 1 1 = some (if (1 : Int) = 1 then [PageEntry.page 1] else [])) :=
  ⟨by decide, pagination_suppressed_for_single_page 1 1 1 1 (by decide)⟩

/-! ## The infinite accumulator: claims -/

/-- C9: in a state where `loading` is true or `hasMore` is false,
`loadMoreMovies` is a no-op: it issues no catalog request and returns the state
unchanged (all of `movies`, `page`, `hasMore`, `loading`, `error`), whether it
is called directly or through the load-more trigger effect.  Consequently, from
an idle state with `hasMore`, the first load-more signal issues the request for
`page + 1`, and a second signal arriving before that request settles issues
none: one outgoing fetch in total. -/
theorem loadMoreMovies_noop_when_loading_or_exhausted (type searchQuery : String)
    (inView : Bool) (s : AccState) (h : s.loading = true ∨ s.hasMore = false) :
    loadMoreMoviesStart type searchQuery s = (s, none) ∧
    loadMoreTrigger inView type searchQuery s = (s, none) ∧
    (∀ catalog, loadMoreMovies catalog type searchQuery s = (s, [])) ∧
    (∀ s0 : AccState, s0.loading = false → s0.hasMore = true →
      ∃ s1, loadMoreMoviesStart type searchQuery s0
          = (s1, some (catalogCall type searchQuery (s0.page + 1))) ∧
        loadMoreMoviesStart type searchQuery s1 = (s1, none) ∧
        loadMoreTrigger inView type searchQuery s1 = (s1, none) ∧
        ((loadMoreMoviesStart type searchQuery s0).2.toList
          ++ (loadMoreMoviesStart type searchQuery s1).2.toList).length = 1) := by
  have hstart : loadMoreMoviesStart type searchQuery s = (s, none) := by
    unfold loadMoreMoviesStart
    rcases h with h | h <;> simp [h]
  refine ⟨hstart, ?_, ?_, ?_⟩
  · unfold loadMoreTrigger
    split
    · exact hstart
    · rfl
  · intro catalog
    unfold loadMoreMovies
    rw [hstart]
  · intro s0 hl hm
    have h0 : loadMoreMoviesStart type searchQuery s0
        = ({ s0 with loading := true, error := none },
            some (catalogCall type searchQuery (s0.page + 1))) := by
      unfold loadMoreMoviesStart
      simp [hl, hm]
    have h1 : loadMoreMoviesStart type searchQuery { s0 with loading := true, error := none }
        = ({ s0 with loading := true, error := none }, none) := by
      unfold loadMoreMoviesStart
      simp
    refine ⟨_, h0, h1, ?_, ?_⟩
    · unfold loadMoreTrigger
      split
      · exact h1
      · rfl
    · rw [h0, h1]
      rfl

theorem loadMoreMovies_noop_when_loading_or_exhausted_witness :
    ((⟨[⟨7, "Dune"⟩], 2, true, true, false, none⟩ : AccState).loading = true ∨
      (⟨[⟨7, "Dune"⟩], 2, true, true, false, none⟩ : AccState).hasMore = false) ∧
    loadMoreMoviesStart "popular" "" ⟨[⟨7, "Dune"⟩], 2, true, true, false, none⟩
      = (⟨[⟨7, "Dune"⟩], 2, true, true, false, none⟩, none) :=
  ⟨Or.inl rfl,
    (loadMoreMovies_noop_when_loading_or_exhausted "popular" "" true
      ⟨[⟨7, "Dune"⟩], 2, true, true, false, none⟩ (Or.inl rfl)).1⟩

/-- C10: from a state with `loading = false` and `hasMore = true`, when the
request for `page + 1` resolves with a non-empty `results` list, the run of
`loadMoreMovies` issues exactly that request and ends with
`movies = old movies ++ results`: the old items are an unchanged prefix, the
length grows by `results.length`, every item occurs as often as in the old list
plus as often as in `results` (nothing is dropped as a duplicate), and `page`
has advanced by exactly 1. -/
theorem loadMoreMovies_appends_page (catalog : CatalogCall → FetchOutcome)
    (type searchQuery : String) (s : AccState) (data : PageData)
    (hl : s.loading = false) (hm : s.hasMore = true)
    (hres : catalog (catalogCall type searchQuery (s.page + 1)) = .resolved data)
    (hne : data.results ≠ []) :
    (loadMoreMovies catalog type searchQuery s).2
      = [catalogCall type searchQuery (s.page + 1)] ∧
    (loadMoreMovies catalog type searchQuery s).1.movies = s.movies ++ data.results ∧
    (loadMoreMovies catalog type searchQuery s).1.movies.take s.movies.length = s.movies ∧
    (loadMoreMovies catalog type searchQuery s).1.movies.length
      = s.movies.length + data.results.length ∧
    (∀ m : Movie, (loadMoreMovies catalog type searchQuery s).1.movies.count m
      = s.movies.count m + data.results.count m) ∧
    (loadMoreMovies catalog type searchQuery s).1.page = s.page + 1 := by
  have h0 : loadMoreMoviesStart type searchQuery s
      = ({ s with loading := true, error := none },
          some (catalogCall type searchQuery (s.page + 1))) := by
    unfold loadMoreMoviesStart
    simp [hl, hm]
  have hlen : ¬ data.results.length = 0 := by
    intro h
    exact hne (List.length_eq_zero.1 h)
  have hrun : loadMoreMovies catalog type searchQuery s
      = ({ s with
            movies := s.movies ++ data.results
            page := s.page + 1
            hasMore := decide (s.page + 1 < data.total_pages) && decide (s.page + 1 < 500)
            loading := false
            error := none },
          [catalogCall type searchQuery (s.page + 1)]) := by
    unfold loadMoreMovies
    rw [h0]
    simp only [hres, loadMoreMoviesSettle, hlen, if_false]
  rw [hrun]
  refine ⟨rfl, rfl, ?_, ?_, ?_, rfl⟩
  · simp
  · simp
  · intro m
    simp

theorem loadMoreMovies_appends_page_witness :
    (loadMoreMovies (fun _ => .resolved ⟨[⟨7, "Dune"⟩, ⟨9, "Heat"⟩], 40, 800⟩) "popular" ""
        ⟨[⟨7, "Dune"⟩], 1, true, false, false, none⟩).1.movies
      = [⟨7, "Dune"⟩, ⟨7, "Dune"⟩, ⟨9, "Heat"⟩] ∧
    (loadMoreMovies (fun _ => .resolved ⟨[⟨7, "Dune"⟩, ⟨9, "Heat"⟩], 40, 800⟩) "popular" ""
        ⟨[⟨7, "Dune"⟩], 1, true, false, false, none⟩).1.page = 2 :=
  ⟨(loadMoreMovies_appends_page (fun _ => .resolved ⟨[⟨7, "Dune"⟩, ⟨9, "Heat"⟩], 40, 800⟩)
      "popular" "" ⟨[⟨7, "Dune"⟩], 1, true, false, false, none⟩
      ⟨[⟨7, "Dune"⟩, ⟨9, "Heat"⟩], 40, 800⟩ rfl rfl rfl (by simp)).2.1,
    (loadMoreMovies_appends_page (fun _ => .resolved ⟨[⟨7, "Dune"⟩, ⟨9, "Heat"⟩], 40, 800⟩)
      "popular" "" ⟨[⟨7, "Dune"⟩], 1, true, false, false, none⟩
      ⟨[⟨7, "Dune"⟩, ⟨9, "Heat"⟩], 40, 800⟩ rfl rfl rfl (by simp)).2.2.2.2.2⟩

/-! ## The infinite accumulator: runs of the two loaders -/

theorem loadMoreMoviesStart_idle (type searchQuery : String) (s : AccState)
    (hl : s.loading = false) (hm : s.hasMore = true) :
    loadMoreMoviesStart type searchQuery s
      = ({ s with loading := true, error := none },
          some (catalogCall type searchQuery (s.page + 1))) := by
  unfold loadMoreMoviesStart
  simp [hl, hm]

/-- A run of `loadMoreMovies` from an idle state, as a function of the outcome
of its request. -/
theorem loadMoreMovies_idle (catalog : CatalogCall → FetchOutcome)
    (type searchQuery : String) (s : AccState)
    (hl : s.loading = false) (hm : s.hasMore = true) :
    loadMoreMovies catalog type searchQuery s
      = (loadMoreMoviesSettle (s.page + 1) (catalog (catalogCall type searchQuery (s.page + 1)))
          { s with loading := true, error := none },
         [catalogCall type searchQuery (s.page + 1)]) := by
  unfold loadMoreMovies
  rw [loadMoreMoviesStart_idle type searchQuery s hl hm]

theorem page_catalogCall (type searchQuery : String) (p : Int) :
    (catalogCall type searchQuery p).page = p := by
  unfold catalogCall
  split
  · rfl
  · split
    · rfl
    · split <;> rfl

theorem catalogCall_popular (p : Int) : catalogCall "popular" "" p = .getPopularMovies p := by
  rfl

/-- Each completed loader call keeps `hasMore → page < 500` and requests a page
of at most 500. -/
theorem apply_keeps_cap (e : AccEvent) (s : AccState)
    (hinv : s.hasMore = true → s.page < 500) :
    ((e.apply s).1.hasMore = true → (e.apply s).1.page < 500) ∧
    ∀ call ∈ (e.apply s).2, call.page ≤ 500 := by
  cases e with
  | initialLoad type searchQuery outcome =>
    have hcall : ∀ call ∈ [catalogCall type searchQuery 1], call.page ≤ 500 := by
      intro call hc
      rw [List.mem_singleton] at hc
      rw [hc, page_catalogCall]
      decide
    cases outcome with
    | resolved data =>
      refine ⟨?_, hcall⟩
      intro _
      show (1 : Int) < 500
      decide
    | rejected => exact ⟨hinv, hcall⟩
  | loadMore type searchQuery outcome =>
    by_cases hg : s.loading = false ∧ s.hasMore = true
    · obtain ⟨hl, hm⟩ := hg
      have hp := hinv hm
      have hrun := loadMoreMovies_idle (fun _ => outcome) type searchQuery s hl hm
      have hcall : ∀ call ∈ [catalogCall type searchQuery (s.page + 1)], call.page ≤ 500 := by
        intro call hc
        rw [List.mem_singleton] at hc
        rw [hc, page_catalogCall]
        omega
      show ((loadMoreMovies (fun _ => outcome) type searchQuery s).1.hasMore = true →
          (loadMoreMovies (fun _ => outcome) type searchQuery s).1.page < 500) ∧
        ∀ call ∈ (loadMoreMovies (fun _ => outcome) type searchQuery s).2, call.page ≤ 500
      rw [hrun]
      refine ⟨?_, hcall⟩
      cases outcome with
      | resolved data =>
        by_cases hlen : data.results.length = 0
        · simp [loadMoreMoviesSettle, hlen]
        · simp only [loadMoreMoviesSettle, hlen, if_false]
          intro h
          simp only [Bool.and_eq_true, decide_eq_true_eq] at h
          exact h.2
      | rejected =>
        simp only [loadMoreMoviesSettle]
        intro _
        exact hp
    · have hnoop : loadMoreMovies (fun _ => outcome) type searchQuery s = (s, []) := by
        unfold loadMoreMovies loadMoreMoviesStart
        have : (s.loading || !s.hasMore) = true := by
          cases h1 : s.loading <;> cases h2 : s.hasMore <;> simp_all
        simp [this]
      show ((loadMoreMovies (fun _ => outcome) type searchQuery s).1.hasMore = true →
          (loadMoreMovies (fun _ => outcome) type searchQuery s).1.page < 500) ∧
        ∀ call ∈ (loadMoreMovies (fun _ => outcome) type searchQuery s).2, call.page ≤ 500
      rw [hnoop]
      exact ⟨hinv, by intro call hc; cases hc⟩

theorem runEvents_keeps_cap (events : List AccEvent) :
    ∀ s : AccState, (s.hasMore = true → s.page < 500) →
      ((runEvents s events).1.hasMore = true → (runEvents s events).1.page < 500) ∧
      ∀ call ∈ (runEvents s events).2, call.page ≤ 500 := by
  induction events with
  | nil =>
    intro s hinv
    exact ⟨hinv, by intro call hc; cases hc⟩
  | cons e es ih =>
    intro s hinv
    obtain ⟨h1, h2⟩ := apply_keeps_cap e s hinv
    obtain ⟨h3, h4⟩ := ih (e.apply s).1 h1
    refine ⟨h3, ?_⟩
    intro call hc
    rcases List.mem_append.1 hc with hc | hc
    · exact h2 call hc
    · exact h4 call hc

theorem loadUntilExhausted_done (catalog : CatalogCall → FetchOutcome)
    (type searchQuery : String) (fuel : Nat) (s : AccState) (h : s.hasMore = false) :
    loadUntilExhausted catalog type searchQuery fuel s = (s, []) := by
  cases fuel with
  | zero => rfl
  | succ n => simp [loadUntilExhausted, h]

theorem loadUntilExhausted_step (catalog : CatalogCall → FetchOutcome)
    (type searchQuery : String) (fuel : Nat) (s : AccState) (h : s.hasMore = true) :
    loadUntilExhausted catalog type searchQuery (fuel + 1) s
      = ((loadUntilExhausted catalog type searchQuery fuel
            (loadMoreMovies catalog type searchQuery s).1).1,
          (loadMoreMovies catalog type searchQuery s).2
            ++ (loadUntilExhausted catalog type searchQuery fuel
              (loadMoreMovies catalog type searchQuery s).1).2) := by
  simp [loadUntilExhausted, h]

theorem loadMoreMovies_popular_nonempty (catalog : CatalogCall → FetchOutcome) (s : AccState)
    (p : Int) (data : PageData) (hl : s.loading = false) (hm : s.hasMore = true)
    (hp : s.page + 1 = p) (hres : catalog (.getPopularMovies p) = .resolved data)
    (hne : data.results ≠ []) :
    loadMoreMovies catalog "popular" "" s
      = ({ s with
            movies := s.movies ++ data.results
            page := p
            hasMore := decide (p < data.total_pages) && decide (p < 500)
            loading := false
            error := none },
          [.getPopularMovies p]) := by
  subst hp
  have hlen : ¬ data.results.length = 0 := fun h => hne (List.length_eq_zero.1 h)
  rw [loadMoreMovies_idle catalog "popular" "" s hl hm, catalogCall_popular, hres]
  simp only [loadMoreMoviesSettle, hlen, if_false]

theorem loadMoreMovies_popular_empty (catalog : CatalogCall → FetchOutcome) (s : AccState)
    (p : Int) (data : PageData) (hl : s.loading = false) (hm : s.hasMore = true)
    (hp : s.page + 1 = p) (hres : catalog (.getPopularMovies p) = .resolved data)
    (hempty : data.results = []) :
    loadMoreMovies catalog "popular" "" s
      = ({ s with hasMore := false, loading := false, error := none },
          [.getPopularMovies p]) := by
  subst hp
  rw [loadMoreMovies_idle catalog "popular" "" s hl hm, catalogCall_popular, hres]
  simp [loadMoreMoviesSettle, hempty]

/-- C11: from a state with `loading = false` and `hasMore = true`, when the
request of `loadMoreMovies` resolves with an empty `results` list, `hasMore`
becomes false, the accumulated `movies` and the `page` cursor are exactly as
before, and the run ends with `loading = false`. -/
theorem loadMoreMovies_empty_page (catalog : CatalogCall → FetchOutcome)
    (type searchQuery : String) (s : AccState) (data : PageData)
    (hl : s.loading = false) (hm : s.hasMore = true)
    (hres : catalog (catalogCall type searchQuery (s.page + 1)) = .resolved data)
    (hempty : data.results = []) :
    (loadMoreMovies catalog type searchQuery s).1.hasMore = false ∧
    (loadMoreMovies catalog type searchQuery s).1.movies = s.movies ∧
    (loadMoreMovies catalog type searchQuery s).1.page = s.page ∧
    (loadMoreMovies catalog type searchQuery s).1.loading = false := by
  rw [loadMoreMovies_idle catalog type searchQuery s hl hm, hres]
  simp [loadMoreMoviesSettle, hempty]

theorem loadMoreMovies_empty_page_witness :
    (loadMoreMovies (fun _ => .resolved ⟨[], 40, 800⟩) "popular" ""
        ⟨[⟨7, "Dune"⟩], 3, true, false, false, none⟩).1.hasMore = false ∧
    (loadMoreMovies (fun _ => .resolved ⟨[], 40, 800⟩) "popular" ""
        ⟨[⟨7, "Dune"⟩], 3, true, false, false, none⟩).1.movies = [⟨7, "Dune"⟩] ∧
    (loadMoreMovies (fun _ => .resolved ⟨[], 40, 800⟩) "popular" ""
        ⟨[⟨7, "Dune"⟩], 3, true, false, false, none⟩).1.page = 3 ∧
    (loadMoreMovies (fun _ => .resolved ⟨[], 40, 800⟩) "popular" ""
        ⟨[⟨7, "Dune"⟩], 3, true, false, false, none⟩).1.loading = false :=
  loadMoreMovies_empty_page (fun _ => .resolved ⟨[], 40, 800⟩) "popular" ""
    ⟨[⟨7, "Dune"⟩], 3, true, false, false, none⟩ ⟨[], 40, 800⟩ rfl rfl rfl rfl

/-- C12: from a state with `loading = false` and `hasMore = true`, when the
request for page `p = page + 1` resolves with a non-empty `results` list and
`total_pages = t`, the run issues exactly the request for page `p`, the cursor
becomes `p`, and afterwards `hasMore = false` if and only if `p ≥ min(t, 500)`;
in particular `hasMore` stays true while `p < min(t, 500)`. -/
theorem loadMoreMovies_exhausted_iff (catalog : CatalogCall → FetchOutcome)
    (type searchQuery : String) (s : AccState) (data : PageData)
    (hl : s.loading = false) (hm : s.hasMore = true)
    (hres : catalog (catalogCall type searchQuery (s.page + 1)) = .resolved data)
    (hne : data.results ≠ []) :
    (loadMoreMovies catalog type searchQuery s).2
      = [catalogCall type searchQuery (s.page + 1)] ∧
    (loadMoreMovies catalog type searchQuery s).1.page = s.page + 1 ∧
    ((loadMoreMovies catalog type searchQuery s).1.hasMore = false ↔
      s.page + 1 ≥ min data.total_pages 500) ∧
    (s.page + 1 < min data.total_pages 500 →
      (loadMoreMovies catalog type searchQuery s).1.hasMore = true) := by
  have hlen : ¬ data.results.length = 0 := fun h => hne (List.length_eq_zero.1 h)
  have hset : loadMoreMoviesSettle (s.page + 1) (.resolved data)
      { s with loading := true, error := none }
      = { s with
          movies := s.movies ++ data.results
          page := s.page + 1
          hasMore := decide (s.page + 1 < data.total_pages) && decide (s.page + 1 < 500)
          loading := false
          error := none } := by
    simp only [loadMoreMoviesSettle, hlen, if_false]
  rw [loadMoreMovies_idle catalog type searchQuery s hl hm, hres, hset]
  refine ⟨rfl, rfl, ?_, ?_⟩
  · show (decide (s.page + 1 < data.total_pages) && decide (s.page + 1 < 500)) = false ↔ _
    rw [Bool.and_eq_false_iff, decide_eq_false_iff_not, decide_eq_false_iff_not]
    constructor
    · intro h
      rcases min_cases data.total_pages 500 with ⟨h1, _⟩ | ⟨h1, _⟩ <;> omega
    · intro h
      rcases min_cases data.total_pages 500 with ⟨h1, _⟩ | ⟨h1, _⟩ <;> omega
  · intro h
    show (decide (s.page + 1 < data.total_pages) && decide (s.page + 1 < 500)) = true
    rw [Bool.and_eq_true, decide_eq_true_iff, decide_eq_true_iff]
    rcases min_cases data.total_pages 500 with ⟨h1, _⟩ | ⟨h1, _⟩ <;> omega

theorem loadMoreMovies_exhausted_iff_witness :
    ((loadMoreMovies (fun _ => .resolved ⟨[⟨9, "Heat"⟩], 2, 21⟩) "popular" ""
        ⟨[⟨7, "Dune"⟩], 1, true, false, false, none⟩).1.hasMore = false ↔
      (1 : Int) + 1 ≥ min 2 500) :=
  (loadMoreMovies_exhausted_iff (fun _ => .resolved ⟨[⟨9, "Heat"⟩], 2, 21⟩) "popular" ""
    ⟨[⟨7, "Dune"⟩], 1, true, false, false, none⟩ ⟨[⟨9, "Heat"⟩], 2, 21⟩
    rfl rfl rfl (by simp)).2.2.1

/-- C13 against the code: after `loadInitialMovies` resolves, `hasMore` is
`total_pages > 1 && total_pages < 500`.  For a catalog reporting 500 pages (or
more) the accumulator is exhausted after page 1, although `1 < min(500, 500)`;
`loadMoreMovies`, which tests `nextPage < 500`, keeps `hasMore` true after
page 2 of the same catalog. -/
theorem loadInitialMovies_exhausted_at_500_pages :
    (∀ (data : PageData) (s : AccState),
      (loadInitialMoviesSettle (.resolved data) s).hasMore
        = (decide (data.total_pages > 1) && decide (data.total_pages < 500))) ∧
    (loadInitialMovies (fun _ => .resolved ⟨[⟨7, "Dune"⟩], 500, 10000⟩) "popular" ""
      AccState.init).1.hasMore = false ∧
    ¬ ((1 : Int) ≥ min 500 500) ∧
    (loadMoreMovies (fun _ => .resolved ⟨[⟨9, "Heat"⟩], 500, 10000⟩) "popular" ""
      ⟨[⟨7, "Dune"⟩], 1, true, false, false, none⟩).1.hasMore = true := by
  refine ⟨fun _ _ => rfl, ?_, ?_, ?_⟩ <;> decide

/-- C14: from a state with `loading = false` and `hasMore = true`, when the
request of `loadMoreMovies` is rejected, `error` is set, the run ends with
`loading = false`, and `hasMore`, `movies` and `page` are unchanged; the next
`loadMoreMovies` therefore issues the request for the same page number
`page + 1` again. -/
theorem loadMoreMovies_failure (catalog : CatalogCall → FetchOutcome)
    (type searchQuery : String) (s : AccState)
    (hl : s.loading = false) (hm : s.hasMore = true)
    (hres : catalog (catalogCall type searchQuery (s.page + 1)) = .rejected) :
    (loadMoreMovies catalog type searchQuery s).1.error = some "Failed to load more movies" ∧
    (loadMoreMovies catalog type searchQuery s).1.loading = false ∧
    (loadMoreMovies catalog type searchQuery s).1.hasMore = s.hasMore ∧
    (loadMoreMovies catalog type searchQuery s).1.movies = s.movies ∧
    (loadMoreMovies catalog type searchQuery s).1.page = s.page ∧
    (loadMoreMovies catalog type searchQuery s).2
      = [catalogCall type searchQuery (s.page + 1)] ∧
    (loadMoreMoviesStart type searchQuery (loadMoreMovies catalog type searchQuery s).1).2
      = some (catalogCall type searchQuery (s.page + 1)) := by
  rw [loadMoreMovies_idle catalog type searchQuery s hl hm, hres]
  refine ⟨rfl, rfl, rfl, rfl, rfl, rfl, ?_⟩
  exact congrArg Prod.snd (loadMoreMoviesStart_idle type searchQuery
    (loadMoreMoviesSettle (s.page + 1) FetchOutcome.rejected
      { s with loading := true, error := none }) rfl hm)

theorem loadMoreMovies_failure_witness :
    (loadMoreMovies (fun _ => .rejected) "upcoming" ""
        ⟨[⟨7, "Dune"⟩], 3, true, false, false, none⟩).1.page = 3 ∧
    (loadMoreMoviesStart "upcoming" "" (loadMoreMovies (fun _ => .rejected) "upcoming" ""
        ⟨[⟨7, "Dune"⟩], 3, true, false, false, none⟩).1).2
      = some (catalogCall "upcoming" "" (3 + 1)) :=
  ⟨(loadMoreMovies_failure (fun _ => .rejected) "upcoming" ""
      ⟨[⟨7, "Dune"⟩], 3, true, false, false, none⟩ rfl rfl rfl).2.2.2.2.1,
    (loadMoreMovies_failure (fun _ => .rejected) "upcoming" ""
      ⟨[⟨7, "Dune"⟩], 3, true, false, false, none⟩ rfl rfl rfl).2.2.2.2.2.2⟩

/-- C15 fails on the code: when the key changes, `loadInitialMovies` starts on a
state with 40 items, `page = 3` and `hasMore = false`, and until the response
arrives the state still has the 40 items, `page = 3` and `hasMore = false`. -/
theorem keyChange_keeps_old_items :
    (loadInitialMoviesStart "popular" "dune"
      ⟨twentyMovies 1 ++ twentyMovies 2, 3, false, false, false, none⟩).1.movies.length = 40 ∧
    (loadInitialMoviesStart "popular" "dune"
      ⟨twentyMovies 1 ++ twentyMovies 2, 3, false, false, false, none⟩).1.page = 3 ∧
    (loadInitialMoviesStart "popular" "dune"
      ⟨twentyMovies 1 ++ twentyMovies 2, 3, false, false, false, none⟩).1.hasMore = false ∧
    ¬ (∀ (type searchQuery : String) (s : AccState),
        (loadInitialMoviesStart type searchQuery s).1.movies = [] ∧
        (loadInitialMoviesStart type searchQuery s).1.page = 1 ∧
        (loadInitialMoviesStart type searchQuery s).1.hasMore = true) := by
  refine ⟨by decide, by decide, by decide, ?_⟩
  intro h
  have h3 := (h "popular" "dune"
    ⟨twentyMovies 1 ++ twentyMovies 2, 3, false, false, false, none⟩).2.1
  exact absurd h3 (by decide)

/-- C15, amended: when the key changes, `loadInitialMovies` for the new key sets
`initialLoading = true` and `error = null`, issues the request for page 1 of
the new key, and leaves `movies`, `page` and `hasMore` as they were until the
response arrives; when the response resolves, `movies` becomes exactly the
`results` of the response (no old item is kept), `page` becomes 1 and
`initialLoading` becomes false. -/
theorem keyChange_replaces_on_response (type searchQuery : String) (s : AccState)
    (data : PageData) :
    loadInitialMoviesStart type searchQuery s
      = ({ s with initialLoading := true, error := none }, catalogCall type searchQuery 1) ∧
    (loadInitialMoviesStart type searchQuery s).1.movies = s.movies ∧
    (loadInitialMoviesStart type searchQuery s).1.page = s.page ∧
    (loadInitialMoviesStart type searchQuery s).1.hasMore = s.hasMore ∧
    (loadInitialMovies (fun _ => .resolved data) type searchQuery s).1.movies = data.results ∧
    (loadInitialMovies (fun _ => .resolved data) type searchQuery s).1.page = 1 ∧
    (loadInitialMovies (fun _ => .resolved data) type searchQuery s).1.initialLoading = false :=
  ⟨rfl, rfl, rfl, rfl, rfl, rfl, rfl⟩

/-- C16: in every state reached from the initial state by any sequence of
completed `loadInitialMovies` and `loadMoreMovies` calls (each resolved with
any body, empty or not, or rejected), `hasMore = true` implies `page < 500`,
and every request issued along the way asks for a page number of at most
500. -/
theorem accumulator_never_beyond_cap (events : List AccEvent) :
    ((runEvents AccState.init events).1.hasMore = true →
      (runEvents AccState.init events).1.page < 500) ∧
    ∀ call ∈ (runEvents AccState.init events).2, call.page ≤ 500 :=
  runEvents_keeps_cap events AccState.init (fun _ => by decide)

/-- C17 fails when the catalog reports three pages: with twenty items on each
of the pages 1, 2, 3, none on page 4 and `total_pages = 3`, the session ends
exhausted with 60 items after three requests; page 4 is never requested. -/
theorem browseSession_three_page_catalog :
    (browseSession (threePageCatalog 3) "popular" "" 10).1.movies.length = 60 ∧
    (browseSession (threePageCatalog 3) "popular" "" 10).1.hasMore = false ∧
    (browseSession (threePageCatalog 3) "popular" "" 10).2
      = [.getPopularMovies 1, .getPopularMovies 2, .getPopularMovies 3] ∧
    (browseSession (threePageCatalog 3) "popular" "" 10).2.length ≠ 4 := by
  refine ⟨?_, ?_, ?_, ?_⟩ <;> decide

/-- C17, amended: for the category `popular`, when the catalog returns twenty
items for each of the pages 1, 2, 3 and none for page 4 and reports a page
count `t` with `4 ≤ t < 500`, the initial load followed by load-more signals
until exhaustion (three signals suffice) ends with the 60 items of the pages
1, 2, 3 in order, `hasMore = false`, and exactly the four requests for the
pages 1, 2, 3, 4. -/
theorem browseSession_four_requests (catalog : CatalogCall → FetchOutcome) (t : Int)
    (d1 d2 d3 d4 : PageData) (fuel : Nat) (hfuel : 3 ≤ fuel) (ht : 4 ≤ t) (ht' : t < 500)
    (h1 : catalog (.getPopularMovies 1) = .resolved d1)
    (h2 : catalog (.getPopularMovies 2) = .resolved d2)
    (h3 : catalog (.getPopularMovies 3) = .resolved d3)
    (h4 : catalog (.getPopularMovies 4) = .resolved d4)
    (n1 : d1.results.length = 20) (n2 : d2.results.length = 20)
    (n3 : d3.results.length = 20) (n4 : d4.results = [])
    (t1 : d1.total_pages = t) (t2 : d2.total_pages = t) (t3 : d3.total_pages = t) :
    (browseSession catalog "popular" "" fuel).1.movies
      = d1.results ++ d2.results ++ d3.results ∧
    (browseSession catalog "popular" "" fuel).1.movies.length = 60 ∧
    (browseSession catalog "popular" "" fuel).1.hasMore = false ∧
    (browseSession catalog "popular" "" fuel).2
      = [.getPopularMovies 1, .getPopularMovies 2, .getPopularMovies 3, .getPopularMovies 4] ∧
    (browseSession catalog "popular" "" fuel).2.length = 4 := by
  obtain ⟨k, rfl⟩ : ∃ k, fuel = k + 3 := ⟨fuel - 3, by omega⟩
  have ne2 : d2.results ≠ [] := by
    intro h; rw [h] at n2; simp at n2
  have ne3 : d3.results ≠ [] := by
    intro h; rw [h] at n3; simp at n3
  have b1 : (decide (d1.total_pages > 1) && decide (d1.total_pages < 500)) = true := by
    rw [Bool.and_eq_true, decide_eq_true_iff, decide_eq_true_iff]; omega
  have b2 : (decide ((2 : Int) < d2.total_pages) && decide ((2 : Int) < 500)) = true := by
    rw [Bool.and_eq_true, decide_eq_true_iff, decide_eq_true_iff]; omega
  have b3 : (decide ((3 : Int) < d3.total_pages) && decide ((3 : Int) < 500)) = true := by
    rw [Bool.and_eq_true, decide_eq_true_iff, decide_eq_true_iff]; omega
  have e0 : loadInitialMovies catalog "popular" "" AccState.init
      = (⟨d1.results, 1, true, false, false, none⟩, [.getPopularMovies 1]) := by
    unfold loadInitialMovies loadInitialMoviesStart
    rw [catalogCall_popular]
    simp only [h1, loadInitialMoviesSettle, b1, AccState.init]
  have e1 : loadMoreMovies catalog "popular" "" ⟨d1.results, 1, true, false, false, none⟩
      = (⟨d1.results ++ d2.results, 2, true, false, false, none⟩, [.getPopularMovies 2]) := by
    rw [loadMoreMovies_popular_nonempty catalog ⟨d1.results, 1, true, false, false, none⟩ 2 d2
      rfl rfl (by show (1 : Int) + 1 = 2; decide) h2 ne2, b2]
  have e2 : loadMoreMovies catalog "popular" ""
      ⟨d1.results ++ d2.results, 2, true, false, false, none⟩
      = (⟨d1.results ++ d2.results ++ d3.results, 3, true, false, false, none⟩,
          [.getPopularMovies 3]) := by
    rw [loadMoreMovies_popular_nonempty catalog
      ⟨d1.results ++ d2.results, 2, true, false, false, none⟩ 3 d3
      rfl rfl (by show (2 : Int) + 1 = 3; decide) h3 ne3, b3]
  have e3 : loadMoreMovies catalog "popular" ""
      ⟨d1.results ++ d2.results ++ d3.results, 3, true, false, false, none⟩
      = (⟨d1.results ++ d2.results ++ d3.results, 3, false, false, false, none⟩,
          [.getPopularMovies 4]) := by
    rw [loadMoreMovies_popular_empty catalog
      ⟨d1.results ++ d2.results ++ d3.results, 3, true, false, false, none⟩ 4 d4
      rfl rfl (by show (3 : Int) + 1 = 4; decide) h4 n4]
  have hrun : browseSession catalog "popular" "" (k + 3)
      = (⟨d1.results ++ d2.results ++ d3.results, 3, false, false, false, none⟩,
          [.getPopularMovies 1, .getPopularMovies 2, .getPopularMovies 3,
            .getPopularMovies 4]) := by
    unfold browseSession
    simp only [e0]
    rw [loadUntilExhausted_step _ _ _ _ _ rfl, e1]
    simp only []
    rw [loadUntilExhausted_step _ _ _ _ _ rfl, e2]
    simp only []
    rw [loadUntilExhausted_step _ _ _ _ _ rfl, e3]
    simp only []
    rw [loadUntilExhausted_done _ _ _ _ _ rfl]
    rfl
  rw [hrun]
  refine ⟨rfl, ?_, rfl, rfl, rfl⟩
  simp [n1, n2, n3]

theorem browseSession_four_requests_witness :
    (browseSession (threePageCatalog 4) "popular" "" 3).1.movies.length = 60 ∧
    (browseSession (threePageCatalog 4) "popular" "" 3).1.hasMore = false ∧
    (browseSession (threePageCatalog 4) "popular" "" 3).2.length = 4 :=
  ⟨(browseSession_four_requests (threePageCatalog 4) 4
      ⟨twentyMovies 1, 4, 60⟩ ⟨twentyMovies 2, 4, 60⟩ ⟨twentyMovies 3, 4, 60⟩ ⟨[], 4, 60⟩ 3
      (by decide) (by decide) (by decide) rfl rfl rfl rfl rfl rfl rfl rfl rfl rfl rfl).2.1,
    (browseSession_four_requests (threePageCatalog 4) 4
      ⟨twentyMovies 1, 4, 60⟩ ⟨twentyMovies 2, 4, 60⟩ ⟨twentyMovies 3, 4, 60⟩ ⟨[], 4, 60⟩ 3
      (by decide) (by decide) (by decide) rfl rfl rfl rfl rfl rfl rfl rfl rfl rfl rfl).2.2.1,
    (browseSession_four_requests (threePageCatalog 4) 4
      ⟨twentyMovies 1, 4, 60⟩ ⟨twentyMovies 2, 4, 60⟩ ⟨twentyMovies 3, 4, 60⟩ ⟨[], 4, 60⟩ 3
      (by decide) (by decide) (by decide) rfl rfl rfl rfl rfl rfl rfl rfl rfl rfl rfl).2.2.2.2⟩

/-! ## URL state: `URLSearchParams`, `parseInt`, `toString` -/

theorem get_nil (name : String) : URLSearchParams.get [] name = none := rfl

theorem get_cons (e : String × String) (rest : URLSearchParams) (name : String) :
    URLSearchParams.get (e :: rest) name
      = if e.1 = name then some e.2 else URLSearchParams.get rest name := by
  unfold URLSearchParams.get
  by_cases h : e.1 = name
  · simp [List.find?_cons, h]
  · simp [List.find?_cons, h]

theorem delete_cons (e : String × String) (rest : URLSearchParams) (name : String) :
    URLSearchParams.delete (e :: rest) name
      = if e.1 = name then URLSearchParams.delete rest name
        else e :: URLSearchParams.delete rest name := by
  unfold URLSearchParams.delete
  by_cases h : e.1 = name
  · simp [List.filter_cons, h]
  · simp [List.filter_cons, h]

theorem has_cons (e : String × String) (rest : URLSearchParams) (name : String) :
    URLSearchParams.has (e :: rest) name
      = if e.1 = name then true else URLSearchParams.has rest name := by
  unfold URLSearchParams.has
  by_cases h : e.1 = name
  · simp [h]
  · simp [h]

theorem get_delete_same (params : URLSearchParams) (name : String) :
    (params.delete name).get name = none := by
  induction params with
  | nil => rfl
  | cons e rest ih =>
    rw [delete_cons]
    by_cases h : e.1 = name
    · rw [if_pos h]; exact ih
    · rw [if_neg h, get_cons, if_neg h]; exact ih

theorem get_delete_other (params : URLSearchParams) (name other : String)
    (h : other ≠ name) : (params.delete name).get other = params.get other := by
  induction params with
  | nil => rfl
  | cons e rest ih =>
    rw [delete_cons]
    by_cases h1 : e.1 = name
    · have h2 : ¬ e.1 = other := fun h3 => h (h3.symm.trans h1)
      rw [if_pos h1, get_cons, if_neg h2]; exact ih
    · rw [if_neg h1, get_cons, get_cons, ih]

theorem get_set_same (params : URLSearchParams) (name value : String) :
    (params.set name value).get name = some value := by
  induction params with
  | nil =>
    show URLSearchParams.get [(name, value)] name = some value
    rw [get_cons, if_pos rfl]
  | cons e rest ih =>
    unfold URLSearchParams.set
    by_cases h1 : e.1 = name
    · rw [if_pos h1, get_cons, if_pos rfl]
    · rw [if_neg h1, get_cons, if_neg h1]; exact ih

theorem get_set_other (params : URLSearchParams) (name value other : String)
    (h : other ≠ name) : (params.set name value).get other = params.get other := by
  have h4 : ¬ name = other := fun h3 => h h3.symm
  induction params with
  | nil =>
    show URLSearchParams.get [(name, value)] other = URLSearchParams.get [] other
    rw [get_cons, if_neg h4]
  | cons e rest ih =>
    unfold URLSearchParams.set
    by_cases h1 : e.1 = name
    · have h2 : ¬ e.1 = other := fun h3 => h (h3.symm.trans h1)
      rw [if_pos h1, get_cons, if_neg h4, get_cons, if_neg h2]
      exact get_delete_other rest name other h
    · rw [if_neg h1, get_cons, get_cons, ih]

theorem has_eq_isSome_get (params : URLSearchParams) (name : String) :
    params.has name = (params.get name).isSome := by
  induction params with
  | nil => rfl
  | cons e rest ih =>
    rw [has_cons, get_cons]
    by_cases h1 : e.1 = name
    · rw [if_pos h1, if_pos h1]; rfl
    · rw [if_neg h1, if_neg h1]; exact ih

theorem digitChar_facts :
    ∀ d : Nat, d < 10 →
      decimalDigit? (digitChar d) = some d ∧ isStrWhiteSpaceChar (digitChar d) = false ∧
      digitChar d ≠ '-' ∧ digitChar d ≠ '+' ∧ digitChar d ≠ 'x' ∧ digitChar d ≠ 'X' := by
  decide

theorem decimalDigits_lt (fuel : Nat) : ∀ n d : Nat, d ∈ decimalDigits fuel n → d < 10 := by
  induction fuel with
  | zero =>
    intro n d hd
    simp [decimalDigits] at hd
  | succ k ih =>
    intro n d hd
    unfold decimalDigits at hd
    by_cases h : n < 10
    · rw [if_pos h, List.mem_singleton] at hd
      omega
    · rw [if_neg h, List.mem_append, List.mem_singleton] at hd
      rcases hd with hd | hd
      · exact ih _ _ hd
      · omega

theorem decimalDigits_ne_nil (fuel n : Nat) : decimalDigits (fuel + 1) n ≠ [] := by
  unfold decimalDigits
  by_cases h : n < 10
  · rw [if_pos h]; simp
  · rw [if_neg h]; simp

theorem decimalDigits_value (fuel : Nat) :
    ∀ n : Nat, n < fuel → (decimalDigits fuel n).foldl (fun acc d => acc * 10 + d) 0 = n := by
  induction fuel with
  | zero =>
    intro n hn
    omega
  | succ k ih =>
    intro n hn
    unfold decimalDigits
    by_cases h : n < 10
    · rw [if_pos h]
      simp
    · rw [if_neg h, List.foldl_append, ih (n / 10) (by omega)]
      simp only [List.foldl_cons, List.foldl_nil]
      omega

theorem leadingDigits_digitChars (ds : List Nat) (h : ∀ d ∈ ds, d < 10) :
    leadingDigits (radixDigit? 10) (ds.map digitChar) = ds := by
  induction ds with
  | nil => rfl
  | cons d rest ih =>
    have hd := (digitChar_facts d (h d (List.mem_cons_self _ _))).1
    have hrest := ih (fun x hx => h x (List.mem_cons_of_mem _ hx))
    have hr : radixDigit? 10 (digitChar d) = some d := by
      unfold radixDigit?
      rw [if_neg (by decide)]
      exact hd
    rw [List.map_cons]
    unfold leadingDigits
    rw [hr]
    simp only []
    rw [hrest]

theorem stripHexMarker_digitChars (ds : List Nat) (h : ∀ d ∈ ds, d < 10) :
    stripHexMarker (ds.map digitChar) = (10, ds.map digitChar) := by
  match ds, h with
  | [], _ => rfl
  | [_], _ => rfl
  | d0 :: d1 :: rest, h =>
    have h1 := digitChar_facts d1 (h d1 (by simp))
    have hne : ¬ (digitChar d0 = '0' ∧ (digitChar d1 = 'x' ∨ digitChar d1 = 'X')) := by
      rintro ⟨_, hx | hx⟩
      · exact h1.2.2.2.2.1 hx
      · exact h1.2.2.2.2.2 hx
    simp only [List.map_cons, stripHexMarker]
    rw [if_neg hne]

/-- `parseInt` reads a non-empty string of decimal digits as the number they
denote. -/
theorem parseIntChars_digitChars (ds : List Nat) (hne : ds ≠ []) (h : ∀ d ∈ ds, d < 10) :
    parseIntChars (ds.map digitChar)
      = some ((ds.foldl (fun acc d => acc * 10 + d) 0 : Nat) : Int) := by
  obtain ⟨d, rest, rfl⟩ := List.exists_cons_of_ne_nil hne
  have hd := digitChar_facts d (h d (List.mem_cons_self _ _))
  have hdrop : ((d :: rest).map digitChar).dropWhile isStrWhiteSpaceChar
      = (d :: rest).map digitChar := by
    rw [List.map_cons, List.dropWhile_cons, hd.2.1]
    simp
  have hsign : stripSign ((d :: rest).map digitChar) = (1, (d :: rest).map digitChar) := by
    rw [List.map_cons]
    show (if digitChar d = '-' then ((-1 : Int), rest.map digitChar)
      else if digitChar d = '+' then (1, rest.map digitChar)
      else (1, digitChar d :: rest.map digitChar)) = _
    rw [if_neg hd.2.2.1, if_neg hd.2.2.2.1]
  unfold parseIntChars
  simp only [hdrop, hsign, stripHexMarker_digitChars _ h, leadingDigits_digitChars _ h]
  simp

theorem unsignedToString_small (m : Nat) (h : m < 1000000000000000000000) :
    unsignedToString m = (decimalDigits (m + 1) m).map digitChar := by
  unfold unsignedToString
  rw [if_pos h]

theorem parseInt_numberToString (m : Nat) (h : m < 1000000000000000000000) :
    parseInt (some (numberToString (m : Int))) = some (m : Int) := by
  show parseIntChars (unsignedToString m) = some (m : Int)
  rw [unsignedToString_small m h,
    parseIntChars_digitChars _ (decimalDigits_ne_nil m m) (decimalDigits_lt (m + 1) m),
    decimalDigits_value (m + 1) m (by omega)]

theorem unsignedToString_ne_nil (m : Nat) : unsignedToString m ≠ [] := by
  unfold unsignedToString
  by_cases h : m < 1000000000000000000000
  · rw [if_pos h]
    intro h3
    exact decimalDigits_ne_nil m m (List.map_eq_nil_iff.1 h3)
  · rw [if_neg h]
    unfold exponentChars
    simp

theorem numberToString_ne_empty (n : Int) : numberToString n ≠ "" := by
  intro h
  have h2 := congrArg String.toList h
  cases n with
  | ofNat m =>
    have h3 : unsignedToString m = [] := h2
    exact unsignedToString_ne_nil m h3
  | negSucc m =>
    have h3 : '-' :: unsignedToString (m + 1) = [] := h2
    cases h3

theorem handleSearch_eq (searchParams : URLSearchParams) (query : String) :
    handleSearch searchParams query
      = (if query ≠ "" then searchParams.set "search" query
          else searchParams.delete "search").set "page" "1" := by
  rfl

theorem handlePageChange_eq (searchParams : URLSearchParams) (newPage : Int) :
    handlePageChange searchParams newPage
      = searchParams.set "page" (numberToString newPage) := by
  show (if numberToString newPage ≠ "" then searchParams.set "page" (numberToString newPage)
    else searchParams.delete "page") = _
  rw [if_pos (numberToString_ne_empty newPage)]

/-! ## URL state: claims -/

/-- C18: for every prior set of URL query parameters (whatever its `page`
value) and every search term, empty or not, after
`handleSearch(term) = updateURLParams({ search: term })` the `page` parameter
is `'1'` and the page derived from the URL is 1. -/
theorem handleSearch_resets_page (searchParams : URLSearchParams) (term : String) :
    (handleSearch searchParams term).get "page" = some "1" ∧
    currentPage (handleSearch searchParams term) = 1 := by
  have hg : (handleSearch searchParams term).get "page" = some "1" := by
    rw [handleSearch_eq]
    exact get_set_same _ "page" "1"
  refine ⟨hg, ?_⟩
  unfold currentPage
  rw [hg]
  decide

/-- C20 fails on the code: after `handleSearch('dune')` on an empty query
string the parameters are `search=dune&page=1`, so the key `page` is present
although the page is 1; the same holds after `handlePageChange(1)`. -/
theorem page_param_kept_at_page_one :
    handleSearch [] "dune" = [("search", "dune"), ("page", "1")] ∧
    currentPage (handleSearch [] "dune") = 1 ∧
    URLSearchParams.has (handleSearch [] "dune") "page" = true ∧
    currentPage (handlePageChange [] 1) = 1 ∧
    URLSearchParams.has (handlePageChange [] 1) "page" = true ∧
    ¬ (∀ (searchParams : URLSearchParams) (term : String),
        (URLSearchParams.has (handleSearch searchParams term) "page" = true ↔
          currentPage (handleSearch searchParams term) ≠ 1)) := by
  refine ⟨by decide, by decide, by decide, by decide, by decide, ?_⟩
  intro h
  exact absurd ((h [] "dune").1 (by decide)) (by decide)

/-- C20, amended: after `handleSearch(term)` the URL query parameters contain
the key `search` if and only if `term` is not empty, and they always contain
`page` with the value `'1'`; after `handlePageChange(n)` they contain `page`
with the value `n.toString()` (also for `n = 1`), and the `search` parameter is
exactly as it was before. -/
theorem url_params_after_transition (searchParams : URLSearchParams) (term : String)
    (n : Int) :
    (URLSearchParams.has (handleSearch searchParams term) "search" = true ↔ term ≠ "") ∧
    (handleSearch searchParams term).get "page" = some "1" ∧
    URLSearchParams.has (handleSearch searchParams term) "page" = true ∧
    (handlePageChange searchParams n).get "page" = some (numberToString n) ∧
    URLSearchParams.has (handlePageChange searchParams n) "page" = true ∧
    (handlePageChange searchParams n).get "search" = searchParams.get "search" ∧
    URLSearchParams.has (handlePageChange searchParams n) "search"
      = URLSearchParams.has searchParams "search" := by
  have hp1 : (handleSearch searchParams term).get "page" = some "1" := by
    rw [handleSearch_eq]
    exact get_set_same _ "page" "1"
  have hp2 : (handlePageChange searchParams n).get "page" = some (numberToString n) := by
    rw [handlePageChange_eq]
    exact get_set_same _ _ _
  have hs2 : (handlePageChange searchParams n).get "search" = searchParams.get "search" := by
    rw [handlePageChange_eq]
    exact get_set_other _ _ _ _ (by decide)
  refine ⟨?_, hp1, ?_, hp2, ?_, hs2, ?_⟩
  · rw [has_eq_isSome_get, handleSearch_eq, get_set_other _ _ _ _ (by decide)]
    by_cases hs : term = ""
    · subst hs
      rw [if_neg (by decide), get_delete_same]
      simp
    · rw [if_pos hs, get_set_same]
      simp [hs]
  · rw [has_eq_isSome_get, hp1]; rfl
  · rw [has_eq_isSome_get, hp2]; rfl
  · rw [has_eq_isSome_get, has_eq_isSome_get, hs2]

/-! ## The pager window: order, bounds and symmetry -/

theorem pageRun_one (a : Int) : pageRun a 1 = [PageEntry.page a] := by
  simp [pageRun, List.range_succ]

theorem pageNumbers_append (A B : List PageEntry) :
    pageNumbers (A ++ B) = pageNumbers A ++ pageNumbers B := by
  induction A with
  | nil => rfl
  | cons e rest ih =>
    cases e with
    | page n => simp [pageNumbers, ih]
    | dots => simp [pageNumbers, ih]

theorem mem_pageNumbers (w : List PageEntry) (p : Int) :
    p ∈ pageNumbers w ↔ PageEntry.page p ∈ w := by
  induction w with
  | nil => simp [pageNumbers]
  | cons e rest ih =>
    cases e with
    | page n => simp [pageNumbers, ih]
    | dots => simp [pageNumbers, ih]

theorem mem_pageNumbers_pageRun (a p : Int) (n : Nat) :
    p ∈ pageNumbers (pageRun a n) ↔ a ≤ p ∧ p < a + (n : Int) := by
  rw [mem_pageNumbers, mem_pageRun]
  constructor
  · rintro ⟨i, hi, h⟩
    injection h with h
    omega
  · rintro ⟨h1, h2⟩
    exact ⟨(p - a).toNat, by omega, by congr 1; omega⟩

theorem sorted_pageRun (a : Int) (n : Nat) :
    (pageNumbers (pageRun a n)).Pairwise (· < ·) := by
  induction n with
  | zero => simp [pageRun, pageNumbers]
  | succ k ih =>
    rw [pageRun_append, pageNumbers_append, pageRun_one, List.pairwise_append]
    refine ⟨ih, by simp [pageNumbers], ?_⟩
    intro x hx y hy
    rw [mem_pageNumbers_pageRun] at hx
    simp only [pageNumbers, List.mem_singleton] at hy
    omega

/-- Page numbers of `run, '...', run`. -/
theorem pageNumbers_run_dots_run (a a' : Int) (n m : Nat) :
    pageNumbers (pageRun a n ++ [PageEntry.dots] ++ pageRun a' m)
      = pageNumbers (pageRun a n) ++ pageNumbers (pageRun a' m) := by
  rw [pageNumbers_append, pageNumbers_append]
  simp [pageNumbers]

theorem sorted_two_runs (a a' : Int) (n m : Nat) (h : a + (n : Int) ≤ a') :
    (pageNumbers (pageRun a n) ++ pageNumbers (pageRun a' m)).Pairwise (· < ·) := by
  rw [List.pairwise_append]
  refine ⟨sorted_pageRun a n, sorted_pageRun a' m, ?_⟩
  intro x hx y hy
  rw [mem_pageNumbers_pageRun] at hx hy
  omega

/-- The page numbers of every window are strictly increasing and lie in
`1..totalPages` (for `siblingCount ≥ 0`, `boundaryCount ≥ 0`). -/
theorem window_pages_sorted (c t s b : Int) (hs : 0 ≤ s) (hb : 0 ≤ b) :
    ∃ w, generatePageNumbers c t s b = some w ∧
      (pageNumbers w).Pairwise (· < ·) ∧
      ∀ p ∈ pageNumbers w, 1 ≤ p ∧ p ≤ t := by
  by_cases hspan : t ≤ totalPageNumbers s b
  · refine ⟨pageRun 1 t.toNat, ?_, sorted_pageRun _ _, ?_⟩
    · unfold generatePageNumbers
      rw [if_pos hspan, arrayFrom_succ]
    · intro p hp
      rw [mem_pageNumbers_pageRun] at hp
      omega
  · have ht : totalPageNumbers s b < t := not_le.1 hspan
    have ht2 : s * 2 + 3 + b * 2 < t := ht
    rcases generatePageNumbers_shape c t s b ht with ⟨_, hw⟩ | ⟨_, hw⟩ | ⟨hl, hr, hw⟩
    · refine ⟨_, hw, ?_, ?_⟩
      · rw [pageNumbers_run_dots_run]
        exact sorted_two_runs _ _ _ _ (by omega)
      · intro p hp
        rw [pageNumbers_run_dots_run, List.mem_append, mem_pageNumbers_pageRun,
          mem_pageNumbers_pageRun] at hp
        omega
    · refine ⟨_, hw, ?_, ?_⟩
      · rw [pageNumbers_run_dots_run]
        exact sorted_two_runs _ _ _ _ (by omega)
      · intro p hp
        rw [pageNumbers_run_dots_run, List.mem_append, mem_pageNumbers_pageRun,
          mem_pageNumbers_pageRun] at hp
        omega
    · refine ⟨_, hw, ?_, ?_⟩
      · rw [pageNumbers_append, pageNumbers_append, pageNumbers_run_dots_run,
          List.pairwise_append]
        refine ⟨?_, sorted_pageRun _ _, ?_⟩
        · simp only [pageNumbers, List.append_nil]
          exact sorted_two_runs _ _ _ _ (by omega)
        · intro x hx y hy
          simp only [pageNumbers, List.append_nil, List.mem_append,
            mem_pageNumbers_pageRun] at hx
          rw [mem_pageNumbers_pageRun] at hy
          omega
      · intro p hp
        rw [pageNumbers_append, pageNumbers_append, pageNumbers_run_dots_run] at hp
        simp only [pageNumbers, List.append_nil, List.mem_append,
          mem_pageNumbers_pageRun] at hp
        omega

theorem mirror_pageRun (t a : Int) (n : Nat) :
    ((pageRun a n).map (mirrorEntry t)).reverse = pageRun (t + 1 - (a + (n : Int)) + 1) n := by
  induction n with
  | zero => simp [pageRun]
  | succ k ih =>
    rw [pageRun_append, List.map_append, List.reverse_append, ih, pageRun_one,
      Nat.add_comm k 1, pageRun_append, pageRun_one]
    have e1 : t + 1 - (a + ((1 + k : Nat) : Int)) + 1 = t + 1 - (a + (k : Int)) := by
      push_cast; ring
    have e2 : t + 1 - (a + (k : Int)) + ((1 : Nat) : Int) = t + 1 - (a + (k : Int)) + 1 := by
      push_cast; ring
    rw [e1, e2]
    rfl

/-- The mirror image of `run, '...', run`. -/
theorem mirror_run_dots_run (t a a' : Int) (n m : Nat) :
    ((pageRun a n ++ [PageEntry.dots] ++ pageRun a' m).map (mirrorEntry t)).reverse
      = pageRun (t + 1 - (a' + (m : Int)) + 1) m ++ [PageEntry.dots]
        ++ pageRun (t + 1 - (a + (n : Int)) + 1) n := by
  rw [List.map_append, List.map_append, List.reverse_append, List.reverse_append,
    mirror_pageRun, mirror_pageRun]
  simp [mirrorEntry]

/-- C28: for `siblingCount ≥ 0`, `boundaryCount ≥ 0`, `totalPages ≥ 0` and every
integer `currentPage`, `generatePageNumbers` returns a window whose page
numbers (ellipsis entries left out) are strictly increasing and lie in
`1..totalPages`; so no page number occurs twice and the React keys made from
them are distinct. -/
theorem window_pages_increasing (c t s b : Int) (hs : 0 ≤ s) (hb : 0 ≤ b) (_ht : 0 ≤ t) :
    ∃ w, generatePageNumbers c t s b = some w ∧
      (pageNumbers w).Pairwise (· < ·) ∧
      (∀ p ∈ pageNumbers w, 1 ≤ p ∧ p ≤ t) ∧
      (pageNumbers w).Nodup := by
  obtain ⟨w, hw, hsorted, hbound⟩ := window_pages_sorted c t s b hs hb
  refine ⟨w, hw, hsorted, hbound, ?_⟩
  exact hsorted.imp (fun h => ne_of_lt h)

theorem window_pages_increasing_witness :
    (0 : Int) ≤ 2 ∧ (0 : Int) ≤ 0 ∧ (0 : Int) ≤ 30 ∧
    ∃ w, generatePageNumbers (-4) 30 2 0 = some w ∧
      (pageNumbers w).Pairwise (· < ·) ∧
      (∀ p ∈ pageNumbers w, 1 ≤ p ∧ p ≤ 30) ∧
      (pageNumbers w).Nodup :=
  ⟨by decide, by decide, by decide,
    window_pages_increasing (-4) 30 2 0 (by decide) (by decide) (by decide)⟩

/-- C29: for `siblingCount ≥ 0`, `boundaryCount ≥ 1`, `totalPages ≥ 1` and
`1 ≤ currentPage ≤ totalPages`, the window for the mirrored page
`totalPages + 1 - currentPage` is the window for `currentPage` reversed, with
every page number `p` replaced by `totalPages + 1 - p` and every ellipsis kept. -/
theorem window_mirror (c t s b : Int) (hs : 0 ≤ s) (hb : 1 ≤ b) (ht : 1 ≤ t)
    (_hc1 : 1 ≤ c) (_hc2 : c ≤ t) :
    generatePageNumbers (t + 1 - c) t s b
      = (generatePageNumbers c t s b).map (fun w => (w.map (mirrorEntry t)).reverse) := by
  by_cases hspan : t ≤ totalPageNumbers s b
  · have h1 : ∀ x : Int, generatePageNumbers x t s b = some (pageRun 1 t.toNat) := by
      intro x
      unfold generatePageNumbers
      rw [if_pos hspan, arrayFrom_succ]
    rw [h1, h1, Option.map_some', mirror_pageRun]
    have e : t + 1 - (1 + ((t.toNat : Nat) : Int)) + 1 = 1 := by omega
    rw [e]
  · have hgt : totalPageNumbers s b < t := not_le.1 hspan
    have hgt2 : s * 2 + 3 + b * 2 < t := hgt
    have n1 : ((b.toNat : Nat) : Int) = b := by omega
    have n2 : (((3 + 2 * s + b).toNat : Nat) : Int) = 3 + 2 * s + b := by omega
    have n3 : (((2 * s + 1).toNat : Nat) : Int) = 2 * s + 1 := by omega
    rcases generatePageNumbers_shape c t s b hgt with ⟨hc, hw⟩ | ⟨hc, hw⟩ | ⟨hl, hr, hw⟩
    · rcases generatePageNumbers_shape (t + 1 - c) t s b hgt with
        ⟨hc', _⟩ | ⟨_, hw'⟩ | ⟨_, hr', _⟩
      · omega
      · rw [hw, hw', Option.map_some', mirror_run_dots_run, n1, n2]
        congr 4 <;> omega
      · omega
    · rcases generatePageNumbers_shape (t + 1 - c) t s b hgt with
        ⟨_, hw'⟩ | ⟨hc', _⟩ | ⟨hl', _, _⟩
      · rw [hw, hw', Option.map_some', mirror_run_dots_run, n1, n2]
        congr 4 <;> omega
      · omega
      · omega
    · rcases generatePageNumbers_shape (t + 1 - c) t s b hgt with
        ⟨hc', _⟩ | ⟨hc', _⟩ | ⟨_, _, hw'⟩
      · omega
      · omega
      · rw [hw, hw', Option.map_some']
        rw [List.map_append, List.map_append, List.reverse_append, List.reverse_append,
          mirror_run_dots_run, mirror_pageRun, n1, n3]
        simp only [List.map_cons, List.map_nil, List.reverse_cons, List.reverse_nil,
          List.nil_append, mirrorEntry, List.append_assoc]
        congr 4 <;> first | omega | (congr 2; omega)

theorem window_mirror_witness :
    (0 : Int) ≤ 1 ∧ (1 : Int) ≤ 1 ∧ (1 : Int) ≤ 20 ∧ (1 : Int) ≤ 3 ∧ (3 : Int) ≤ 20 ∧
    generatePageNumbers (20 + 1 - 3) 20 1 1
      = (generatePageNumbers 3 20 1 1).map (fun w => (w.map (mirrorEntry 20)).reverse) :=
  ⟨by decide, by decide, by decide, by decide, by decide,
    window_mirror 3 20 1 1 (by decide) (by decide) (by decide) (by decide) (by decide)⟩

/-! ## Paged controller: helper facts -/

theorem parseIntChars_neg_digitChars (ds : List Nat) (hne : ds ≠ [])
    (h : ∀ d ∈ ds, d < 10) :
    parseIntChars ('-' :: ds.map digitChar)
      = some (-((ds.foldl (fun acc d => acc * 10 + d) 0 : Nat) : Int)) := by
  have hdrop : ('-' :: ds.map digitChar).dropWhile isStrWhiteSpaceChar
      = '-' :: ds.map digitChar := by
    rw [List.dropWhile_cons, show isStrWhiteSpaceChar '-' = false by decide]
    simp
  have hsign : stripSign ('-' :: ds.map digitChar) = (-1, ds.map digitChar) := by
    show (if '-' = '-' then ((-1 : Int), ds.map digitChar)
      else if '-' = '+' then (1, ds.map digitChar)
      else (1, '-' :: ds.map digitChar)) = _
    rw [if_pos rfl]
  have hz : ¬ ds = [] := hne
  unfold parseIntChars
  simp only [hdrop, hsign, stripHexMarker_digitChars _ h, leadingDigits_digitChars _ h]
  simp [hz]

theorem parseInt_numberToString_int (n : Int)
    (hlo : -1000000000000000000000 < n) (hhi : n < 1000000000000000000000) :
    parseInt (some (numberToString n)) = some n := by
  cases n with
  | ofNat m =>
    have hm : m < 1000000000000000000000 := by
      have : ((m : Nat) : Int) < 1000000000000000000000 := hhi
      omega
    exact parseInt_numberToString m hm
  | negSucc m =>
    have hm : m + 1 < 1000000000000000000000 := by
      rw [Int.negSucc_eq] at hlo
      omega
    show parseIntChars ('-' :: unsignedToString (m + 1)) = _
    rw [unsignedToString_small (m + 1) hm,
      parseIntChars_neg_digitChars _ (decimalDigits_ne_nil (m + 1) (m + 1))
        (decimalDigits_lt (m + 2) (m + 1)), decimalDigits_value (m + 2) (m + 1) (by omega)]
    congr 1

theorem currentPage_of_page_one (searchParams : URLSearchParams)
    (h : searchParams.get "page" = some "1") : currentPage searchParams = 1 := by
  unfold currentPage
  rw [h]
  decide

theorem currentPage_handleSearch (searchParams : URLSearchParams) (term : String) :
    currentPage (handleSearch searchParams term) = 1 := by
  apply currentPage_of_page_one
  rw [handleSearch_eq]
  exact get_set_same _ "page" "1"

theorem currentPage_handlePageChange (searchParams : URLSearchParams) (n : Int)
    (h0 : n ≠ 0) (hlo : -1000000000000000000000 < n) (hhi : n < 1000000000000000000000) :
    currentPage (handlePageChange searchParams n) = n := by
  unfold currentPage
  rw [handlePageChange_eq, get_set_same, parseInt_numberToString_int n hlo hhi]
  simp only [ne_eq, h0, not_false_eq_true, if_true]

theorem urlSearchQuery_handlePageChange (searchParams : URLSearchParams) (n : Int) :
    urlSearchQuery (handlePageChange searchParams n) = urlSearchQuery searchParams := by
  unfold urlSearchQuery
  rw [handlePageChange_eq, get_set_other _ _ _ _ (by decide)]

theorem urlSearchQuery_handleSearch (searchParams : URLSearchParams) (term : String) :
    urlSearchQuery (handleSearch searchParams term) = term := by
  unfold urlSearchQuery
  rw [handleSearch_eq, get_set_other _ _ _ _ (by decide)]
  by_cases hs : term = ""
  · subst hs
    rw [if_neg (by decide), get_delete_same]
  · rw [if_pos hs, get_set_same]
    simp only [hs, ne_eq, not_false_eq_true, if_true]

theorem resetEffect_fires (searchParams : URLSearchParams)
    (hq : urlSearchQuery searchParams ≠ "") (hp : currentPage searchParams ≠ 1) :
    resetEffect searchParams = searchParams.set "page" "1" := by
  unfold resetEffect
  rw [if_pos ⟨hq, hp⟩]
  rfl

theorem resetEffect_idle (searchParams : URLSearchParams)
    (h : urlSearchQuery searchParams = "" ∨ currentPage searchParams = 1) :
    resetEffect searchParams = searchParams := by
  unfold resetEffect
  rw [if_neg]
  rintro ⟨hq, hp⟩
  rcases h with h | h
  · exact hq h
  · exact hp h

theorem currentPage_resetEffect (searchParams : URLSearchParams)
    (hq : urlSearchQuery searchParams ≠ "") : currentPage (resetEffect searchParams) = 1 := by
  by_cases hp : currentPage searchParams = 1
  · rw [resetEffect_idle _ (Or.inr hp)]
    exact hp
  · rw [resetEffect_fires _ hq hp]
    exact currentPage_of_page_one _ (get_set_same _ "page" "1")

theorem fetchEffect_searchParams (type : String) (before : URLSearchParams)
    (cfg : HomeConfig) : (fetchEffect type before cfg).searchParams = cfg.searchParams := by
  unfold fetchEffect
  split <;> rfl

theorem fetchEffect_same (type : String) (cfg : HomeConfig) :
    fetchEffect type cfg.searchParams cfg = cfg := by
  unfold fetchEffect
  rw [if_neg]
  rintro (h | h) <;> exact h rfl

theorem step_setSearch_searchParams (type : String) (cfg : HomeConfig) (term : String) :
    (cfg.step type (.setSearch term)).searchParams = handleSearch cfg.searchParams term := by
  show (navigate type cfg (handleSearch cfg.searchParams term)).searchParams = _
  unfold navigate
  rw [fetchEffect_searchParams]
  exact resetEffect_idle _ (Or.inr (currentPage_handleSearch _ _))

/-! ## Paged controller: claims -/

/-- C21 fails on the code: `handlePageChange` does not look at its argument.
`handlePageChange(0)` and `handlePageChange(-3)` rewrite the `page` parameter,
and after `handlePageChange(-3)` the request issued by `fetchMovies` is for
page -3. -/
theorem handlePageChange_accepts_any_page :
    handlePageChange [("page", "2")] 0 = [("page", "0")] ∧
    handlePageChange [("page", "2")] (-3) = [("page", "-3")] ∧
    (fetchMoviesStart "popular" (handlePageChange [("page", "2")] (-3)) HomeState.init).2
      = .getPopularMovies (-3) ∧
    ¬ (∀ (searchParams : URLSearchParams) (n : Int), n < 1 →
        handlePageChange searchParams n = searchParams) := by
  refine ⟨by decide, by decide, by decide, ?_⟩
  intro h
  exact absurd (h [("page", "2")] 0 (by decide)) (by decide)

/-- C21, amended: `handlePageChange` does no validation, for every `n` it
writes `page = n.toString()` into the URL parameters.  The validation is at the
call site: on `Enter` the go-to-page input of `Pagination` calls
`onPageChange(page)` only when `1 ≤ page ≤ totalPages`; for a text that parses
to `page < 1` or `page > totalPages`, or that is not a number, the URL
parameters stay unchanged, and on unchanged parameters the fetch effect issues
no request. -/
theorem page_validated_at_go_to_input (searchParams : URLSearchParams) (value : String)
    (totalPages page : Int) (hparse : parseInt (some value) = some page) :
    ((page < 1 ∨ totalPages < page) →
      goToPageInput "Enter" value totalPages searchParams = searchParams) ∧
    (1 ≤ page → page ≤ totalPages →
      goToPageInput "Enter" value totalPages searchParams
        = handlePageChange searchParams page) ∧
    (∀ text : String, parseInt (some text) = none →
      goToPageInput "Enter" text totalPages searchParams = searchParams) ∧
    (∀ n : Int, handlePageChange searchParams n
      = searchParams.set "page" (numberToString n)) ∧
    (∀ (type : String) (cfg : HomeConfig), fetchEffect type cfg.searchParams cfg = cfg) := by
  refine ⟨?_, ?_, ?_, fun n => handlePageChange_eq _ n, fun type cfg => fetchEffect_same type cfg⟩
  · intro h
    unfold goToPageInput
    rw [if_pos rfl, hparse]
    simp only []
    rw [if_neg]
    omega
  · intro h1 h2
    unfold goToPageInput
    rw [if_pos rfl, hparse]
    simp only []
    rw [if_pos ⟨h1, h2⟩]
  · intro text ht
    unfold goToPageInput
    rw [if_pos rfl, ht]

theorem page_validated_at_go_to_input_witness :
    parseInt (some "7") = some 7 ∧
    (((7 : Int) < 1 ∨ (5 : Int) < 7) →
      goToPageInput "Enter" "7" 5 [("page", "2")] = [("page", "2")]) :=
  ⟨by decide, (page_validated_at_go_to_input [("page", "2")] "7" 5 7 (by decide)).1⟩

/-- C22: when a paged fetch resolves with `total_pages = t ≥ 0`, the controller
stores `totalPages = min(t, 500)`, which is at most 500, and every page number
in the window that `Pagination` shows for it (`siblingCount = 1`,
`boundaryCount = 1`, any current page) lies in `1..500`. -/
theorem fetchMovies_caps_totalPages (s : HomeState) (data : PageData) (c : Int)
    (_ht : 0 ≤ data.total_pages) :
    (fetchMoviesSettle (.resolved data) s).totalPages = min data.total_pages 500 ∧
    (fetchMoviesSettle (.resolved data) s).totalPages ≤ 500 ∧
    ∀ p : Int,
      PageEntry.page p ∈ Pagination c (fetchMoviesSettle (.resolved data) s).totalPages 1 1 →
        1 ≤ p ∧ p ≤ 500 := by
  have hT : (fetchMoviesSettle (.resolved data) s).totalPages
      = if data.total_pages > 500 then 500 else data.total_pages := rfl
  have hmin : (fetchMoviesSettle (.resolved data) s).totalPages = min data.total_pages 500 := by
    rw [hT]
    by_cases h : data.total_pages > 500
    · rw [if_pos h, min_eq_right (by omega)]
    · rw [if_neg h, min_eq_left (by omega)]
  have hle : (fetchMoviesSettle (.resolved data) s).totalPages ≤ 500 := by
    rw [hmin]; exact min_le_right _ _
  refine ⟨hmin, hle, ?_⟩
  intro p hp
  obtain ⟨w, hw, _, hbound⟩ := window_pages_sorted c
    (fetchMoviesSettle (.resolved data) s).totalPages 1 1 (by decide) (by decide)
  unfold Pagination at hp
  by_cases h1 : (fetchMoviesSettle (.resolved data) s).totalPages ≤ 1
  · simp [h1] at hp
  · simp only [h1, if_false, hw, Option.getD_some] at hp
    have := hbound p ((mem_pageNumbers w p).2 hp)
    omega

theorem fetchMovies_caps_totalPages_witness :
    (0 : Int) ≤ 46000 ∧
    (fetchMoviesSettle (.resolved ⟨[⟨7, "Dune"⟩], 46000, 920000⟩) HomeState.init).totalPages
      = min 46000 500 :=
  ⟨by decide,
    (fetchMovies_caps_totalPages HomeState.init ⟨[⟨7, "Dune"⟩], 46000, 920000⟩ 3
      (by decide)).1⟩

/-- C23 against the code: `fetchMovies` requests `pageToFetch = currentPage`,
the page derived from the URL, as it is; for the query string `?page=600` the
request is for page 600, beyond the cap of 500. -/
theorem fetchMovies_requests_url_page :
    (∀ (type : String) (searchParams : URLSearchParams) (s : HomeState),
      (fetchMoviesStart type searchParams s).2.page = currentPage searchParams) ∧
    currentPage [("page", "600")] = 600 ∧
    (fetchMovies (fun _ => .rejected) "popular" [("page", "600")] HomeState.init).2
      = [.getPopularMovies 600] ∧
    ¬ ((600 : Int) ≤ 500) := by
  refine ⟨fun type searchParams s => page_catalogCall _ _ _, by decide, by decide, by decide⟩

/-- C24: whatever the state before (a non-empty result list included), when
the request of `fetchMovies` is rejected the run ends in a state, with
`movies = []`, `totalPages = 0`, `totalResults = 0` and `loading = false`. -/
theorem fetchMovies_failure_empties (catalog : CatalogCall → FetchOutcome) (type : String)
    (searchParams : URLSearchParams) (s : HomeState)
    (hres : catalog (catalogCall type (urlSearchQuery searchParams) (currentPage searchParams))
      = .rejected) :
    (fetchMovies catalog type searchParams s).1
      = { movies := [], loading := false, totalPages := 0, totalResults := 0 } ∧
    (fetchMovies catalog type searchParams s).1.movies = [] ∧
    (fetchMovies catalog type searchParams s).1.totalPages = 0 ∧
    (fetchMovies catalog type searchParams s).1.totalResults = 0 ∧
    (fetchMovies catalog type searchParams s).1.loading = false := by
  have h : (fetchMovies catalog type searchParams s).1
      = { movies := [], loading := false, totalPages := 0, totalResults := 0 } := by
    show fetchMoviesSettle
      (catalog (catalogCall type (urlSearchQuery searchParams) (currentPage searchParams)))
      { s with loading := true } = _
    rw [hres]
    rfl
  rw [h]
  exact ⟨rfl, rfl, rfl, rfl, rfl⟩

theorem fetchMovies_failure_empties_witness :
    (fetchMovies (fun _ => .rejected) "popular" [("search", "dune")]
        ⟨[⟨7, "Dune"⟩, ⟨9, "Heat"⟩], false, 12, 240⟩).1
      = { movies := [], loading := false, totalPages := 0, totalResults := 0 } :=
  (fetchMovies_failure_empties (fun _ => .rejected) "popular" [("search", "dune")]
    ⟨[⟨7, "Dune"⟩, ⟨9, "Heat"⟩], false, 12, 240⟩ rfl).1

/-- C25 against the code: `parseInt(searchParams.get('page')) || 1` is 1 for an
absent, empty, non-numeric or zero `page` parameter, but a negative parameter
is kept: for `?page=-3` the current page is -3. -/
theorem currentPage_negative :
    currentPage [] = 1 ∧
    currentPage [("page", "")] = 1 ∧
    currentPage [("page", "abc")] = 1 ∧
    currentPage [("page", "0")] = 1 ∧
    currentPage [("page", "-3")] = -3 ∧
    ¬ (∀ searchParams : URLSearchParams, 1 ≤ currentPage searchParams) := by
  refine ⟨by decide, by decide, by decide, by decide, by decide, ?_⟩
  intro h
  exact absurd (h [("page", "-3")]) (by decide)

/-- C30: with a non-empty search term in the URL, after `handlePageChange(n)`
for a page `n ≠ 1` (`n ≠ 0`, which is no page and is read back as page 1, and
`|n| < 10^21`, where `n.toString()` prints the digits of `n`) the current page
is `n`, so the reset-to-page-1 effect fires and rewrites the `page` parameter
to `'1'`, leaving the search term as it was; and in every state in which that
effect has nothing to do, a non-empty search term implies that the current
page is 1. -/
theorem search_forces_page_one (searchParams : URLSearchParams) (n : Int)
    (hq : urlSearchQuery searchParams ≠ "") (h0 : n ≠ 0) (h1 : n ≠ 1)
    (hlo : -1000000000000000000000 < n) (hhi : n < 1000000000000000000000) :
    currentPage (handlePageChange searchParams n) = n ∧
    resetEffect (handlePageChange searchParams n)
      = (handlePageChange searchParams n).set "page" "1" ∧
    (resetEffect (handlePageChange searchParams n)).get "page" = some "1" ∧
    currentPage (resetEffect (handlePageChange searchParams n)) = 1 ∧
    urlSearchQuery (resetEffect (handlePageChange searchParams n))
      = urlSearchQuery searchParams ∧
    (∀ settled : URLSearchParams, resetEffect settled = settled →
      urlSearchQuery settled ≠ "" → currentPage settled = 1) ∧
    (∀ any : URLSearchParams, resetEffect (resetEffect any) = resetEffect any) := by
  have hp : currentPage (handlePageChange searchParams n) = n :=
    currentPage_handlePageChange _ _ h0 hlo hhi
  have hq2 : urlSearchQuery (handlePageChange searchParams n) ≠ "" := by
    rw [urlSearchQuery_handlePageChange]; exact hq
  have hfire := resetEffect_fires (handlePageChange searchParams n) hq2 (by rw [hp]; exact h1)
  have hset : ∀ sp : URLSearchParams,
      urlSearchQuery (sp.set "page" "1") = urlSearchQuery sp := by
    intro sp
    unfold urlSearchQuery
    rw [get_set_other _ _ _ _ (by decide)]
  refine ⟨hp, hfire, ?_, ?_, ?_, ?_, ?_⟩
  · rw [hfire]; exact get_set_same _ _ _
  · exact currentPage_resetEffect _ hq2
  · rw [hfire, hset, urlSearchQuery_handlePageChange]
  · intro settled hs hne
    rw [← hs]
    exact currentPage_resetEffect _ hne
  · intro any
    by_cases hqa : urlSearchQuery any = ""
    · rw [resetEffect_idle any (Or.inl hqa), resetEffect_idle any (Or.inl hqa)]
    · exact resetEffect_idle _ (Or.inr (currentPage_resetEffect _ hqa))

theorem search_forces_page_one_witness :
    urlSearchQuery [("search", "dune"), ("page", "1")] ≠ "" ∧ (3 : Int) ≠ 0 ∧ (3 : Int) ≠ 1 ∧
    (-1000000000000000000000 : Int) < 3 ∧ (3 : Int) < 1000000000000000000000 ∧
    currentPage (handlePageChange [("search", "dune"), ("page", "1")] 3) = 3 ∧
    currentPage (resetEffect (handlePageChange [("search", "dune"), ("page", "1")] 3)) = 1 :=
  ⟨by decide, by decide, by decide, by decide, by decide,
    (search_forces_page_one [("search", "dune"), ("page", "1")] 3
      (by decide) (by decide) (by decide) (by decide) (by decide)).1,
    (search_forces_page_one [("search", "dune"), ("page", "1")] 3
      (by decide) (by decide) (by decide) (by decide) (by decide)).2.2.2.1⟩

/-- C26 fails on the code: after `setSearch('dune')` and `setSearch('')` two
requests are pending; when the response for `''` arrives first and the response
for `'dune'` after it, the late response is written into the state, so the
controller shows the results for `'dune'` while the search term is empty (and
the page is 1). -/
theorem stale_response_applied :
    (HomeConfig.run "popular" ⟨[], HomeState.init, []⟩
      [.setSearch "dune", .setSearch ""]).pending
      = [.searchMovies "dune" 1, .getPopularMovies 1] ∧
    urlSearchQuery (HomeConfig.run "popular" ⟨[], HomeState.init, []⟩
      [.setSearch "dune", .setSearch "",
        .respond (.getPopularMovies 1) (.resolved ⟨[⟨9, "Heat"⟩], 40, 800⟩),
        .respond (.searchMovies "dune" 1) (.resolved ⟨[⟨7, "Dune"⟩], 1, 1⟩)]).searchParams
      = "" ∧
    currentPage (HomeConfig.run "popular" ⟨[], HomeState.init, []⟩
      [.setSearch "dune", .setSearch "",
        .respond (.getPopularMovies 1) (.resolved ⟨[⟨9, "Heat"⟩], 40, 800⟩),
        .respond (.searchMovies "dune" 1) (.resolved ⟨[⟨7, "Dune"⟩], 1, 1⟩)]).searchParams
      = 1 ∧
    (HomeConfig.run "popular" ⟨[], HomeState.init, []⟩
      [.setSearch "dune", .setSearch "",
        .respond (.getPopularMovies 1) (.resolved ⟨[⟨9, "Heat"⟩], 40, 800⟩),
        .respond (.searchMovies "dune" 1) (.resolved ⟨[⟨7, "Dune"⟩], 1, 1⟩)]).state.movies
      = [⟨7, "Dune"⟩] := by
  refine ⟨?_, ?_, ?_, ?_⟩ <;> decide

/-- C26, amended: neither controller compares a response with its current key;
a response is written into the current state when it arrives.  In the paged
controller a pending request that settles runs `fetchMoviesSettle` on the
current state, whatever the request was for; `setSearch('dune')` followed by
`setSearch('')` leaves page 1 and an empty search term; and when the response
for `'dune'` arrives before the response for `''`, the results shown at the end
are those for `''`.  In the accumulator a resolved `loadInitialMovies` replaces
the list and a resolved non-empty `loadMoreMovies` appends to it, for whatever
key they were issued. -/
theorem responses_applied_in_arrival_order (type : String) (cfg : HomeConfig) :
    (∀ (call : CatalogCall) (outcome : FetchOutcome), call ∈ cfg.pending →
      (cfg.step type (.respond call outcome)).state = fetchMoviesSettle outcome cfg.state ∧
      (cfg.step type (.respond call outcome)).searchParams = cfg.searchParams) ∧
    currentPage ((cfg.step type (.setSearch "dune")).step type (.setSearch "")).searchParams
      = 1 ∧
    urlSearchQuery ((cfg.step type (.setSearch "dune")).step type (.setSearch "")).searchParams
      = "" ∧
    (∀ dune popular : PageData,
      (HomeConfig.run "popular" ⟨[], HomeState.init, []⟩
        [.setSearch "dune", .setSearch "",
          .respond (.searchMovies "dune" 1) (.resolved dune),
          .respond (.getPopularMovies 1) (.resolved popular)]).state.movies
        = popular.results) ∧
    (∀ (data : PageData) (s : AccState),
      (loadInitialMoviesSettle (.resolved data) s).movies = data.results) ∧
    (∀ (nextPage : Int) (data : PageData) (s : AccState), data.results ≠ [] →
      (loadMoreMoviesSettle nextPage (.resolved data) s).movies
        = s.movies ++ data.results) := by
  refine ⟨?_, ?_, ?_, ?_, fun _ _ => rfl, ?_⟩
  · intro call outcome hmem
    show (if call ∈ cfg.pending then
        ({ cfg with
            state := fetchMoviesSettle outcome cfg.state
            pending := cfg.pending.erase call } : HomeConfig)
      else cfg).state = _ ∧
      (if call ∈ cfg.pending then
        ({ cfg with
            state := fetchMoviesSettle outcome cfg.state
            pending := cfg.pending.erase call } : HomeConfig)
      else cfg).searchParams = _
    rw [if_pos hmem]
    exact ⟨rfl, rfl⟩
  · rw [step_setSearch_searchParams]
    exact currentPage_handleSearch _ _
  · rw [step_setSearch_searchParams]
    exact urlSearchQuery_handleSearch _ _
  · intro dune popular
    rfl
  · intro nextPage data s hne
    have hlen : ¬ data.results.length = 0 := fun h => hne (List.length_eq_zero.1 h)
    simp only [loadMoreMoviesSettle, hlen, if_false]

/-! ## Debounced search input: helper facts -/

theorem handleChange_of_ne (value : String) (s : SearchBarState) (h : value ≠ s.query) :
    handleChange value s = ⟨value, true, some ⟨500, value, true⟩⟩ := by
  unfold handleChange runEffect
  rw [if_pos (Or.inl (fun h2 => h h2.symm))]

theorem elapseAux_none (fuel ms : Nat) (s : SearchBarState) (h : s.timer = none) :
    elapseAux fuel ms s = (s, []) := by
  cases fuel with
  | zero => rfl
  | succ k => simp only [elapseAux, h]

theorem elapseAux_wait (fuel ms : Nat) (s : SearchBarState) (t : DebounceTimer)
    (ht : s.timer = some t) (h : ms < t.remaining) :
    elapseAux (fuel + 1) ms s
      = ({ s with timer := some { t with remaining := t.remaining - ms } }, []) := by
  simp only [elapseAux, ht, h, if_true]

theorem elapseAux_fire (fuel ms : Nat) (s : SearchBarState) (t : DebounceTimer)
    (ht : s.timer = some t) (h : ¬ ms < t.remaining) :
    elapseAux (fuel + 1) ms s
      = ((elapseAux fuel (ms - t.remaining) (timerCallback t s).1).1,
          (timerCallback t s).2 ++ (elapseAux fuel (ms - t.remaining) (timerCallback t s).1).2) := by
  simp only [elapseAux, ht, h, if_false]

/-- While the pending timer closed over `isTyping = false`, time passing calls
`onSearch` never, and this stays so. -/
theorem elapseAux_idle (fuel : Nat) :
    ∀ (ms : Nat) (s : SearchBarState), (∀ t, s.timer = some t → t.isTyping = false) →
      (elapseAux fuel ms s).2 = [] ∧
      (∀ t, (elapseAux fuel ms s).1.timer = some t → t.isTyping = false) ∧
      (elapseAux fuel ms s).1.isTyping = s.isTyping := by
  induction fuel with
  | zero =>
    intro ms s h
    exact ⟨rfl, h, rfl⟩
  | succ k ih =>
    intro ms s h
    cases hs : s.timer with
    | none =>
      rw [elapseAux_none _ _ _ hs]
      exact ⟨rfl, h, rfl⟩
    | some t =>
      have hti := h t hs
      by_cases hlt : ms < t.remaining
      · rw [elapseAux_wait _ _ _ t hs hlt]
        refine ⟨rfl, ?_, rfl⟩
        intro t' ht'
        simp only [Option.some.injEq] at ht'
        rw [← ht']
        exact hti
      · rw [elapseAux_fire _ _ _ t hs hlt]
        have hcb : timerCallback t s = ({ s with timer := none }, []) := by
          unfold timerCallback
          simp [hti]
        rw [hcb]
        have := ih (ms - t.remaining) { s with timer := none } (by intro t' ht'; cases ht')
        exact ⟨by simpa using this.1, this.2.1, this.2.2⟩

/-- Time passing keeps the pending timer's `isTyping` equal to the state's. -/
theorem elapseAux_sync (fuel : Nat) :
    ∀ (ms : Nat) (s : SearchBarState), (∀ t, s.timer = some t → t.isTyping = s.isTyping) →
      ∀ t, (elapseAux fuel ms s).1.timer = some t →
        t.isTyping = (elapseAux fuel ms s).1.isTyping := by
  induction fuel with
  | zero =>
    intro ms s h
    exact h
  | succ k ih =>
    intro ms s h
    cases hs : s.timer with
    | none =>
      rw [elapseAux_none _ _ _ hs]
      exact h
    | some t =>
      have hti := h t hs
      by_cases hlt : ms < t.remaining
      · rw [elapseAux_wait _ _ _ t hs hlt]
        intro t' ht'
        simp only [Option.some.injEq] at ht'
        rw [← ht']
        exact hti
      · rw [elapseAux_fire _ _ _ t hs hlt]
        apply ih
        intro t' ht'
        unfold timerCallback runEffect at ht' ⊢
        by_cases hty : t.isTyping = true
        · have hsty : s.isTyping = true := by rw [← hti]; exact hty
          simp [hty, hsty] at ht' ⊢
          rw [← ht']
        · simp [hty] at ht'

theorem runEffect_sync (old new : SearchBarState)
    (h : ∀ t, old.timer = some t → t.isTyping = old.isTyping)
    (htimer : new.timer = old.timer) :
    ∀ t, (runEffect old new).timer = some t → t.isTyping = (runEffect old new).isTyping := by
  intro t ht
  unfold runEffect at ht ⊢
  by_cases hc : old.query ≠ new.query ∨ old.isTyping ≠ new.isTyping
  · rw [if_pos hc] at ht ⊢
    simp only [Option.some.injEq] at ht
    rw [← ht]
  · rw [if_neg hc] at ht ⊢
    have hsame : old.isTyping = new.isTyping := by
      by_contra hne
      exact hc (Or.inr hne)
    rw [htimer] at ht
    rw [← hsame]
    exact h t ht

theorem apply_sync (e : BarEvent) (s : SearchBarState)
    (h : ∀ t, s.timer = some t → t.isTyping = s.isTyping) :
    ∀ t, (e.apply s).1.timer = some t → t.isTyping = (e.apply s).1.isTyping := by
  cases e with
  | change value => exact runEffect_sync s _ h rfl
  | wait ms => exact elapseAux_sync 3 ms s h
  | submit => exact runEffect_sync s _ h rfl
  | clear => exact runEffect_sync s _ h rfl
  | parentRender =>
    intro t ht
    simp only [BarEvent.apply, parentRender, Option.some.injEq] at ht ⊢
    rw [← ht]

theorem runBar_sync (events : List BarEvent) :
    ∀ s : SearchBarState, (∀ t, s.timer = some t → t.isTyping = s.isTyping) →
      ∀ t, (runBar s events).1.timer = some t → t.isTyping = (runBar s events).1.isTyping := by
  induction events with
  | nil =>
    intro s h
    exact h
  | cons e es ih =>
    intro s h
    exact ih (e.apply s).1 (apply_sync e s h)

theorem mount_sync (initialQuery : String) :
    ∀ t, (SearchBarState.mount initialQuery).timer = some t →
      t.isTyping = (SearchBarState.mount initialQuery).isTyping := by
  intro t ht
  simp only [SearchBarState.mount, Option.some.injEq] at ht ⊢
  rw [← ht]

/-- After an update that sets `isTyping` to false, the pending timer closed
over `isTyping = false`. -/
theorem runEffect_idle (old new : SearchBarState)
    (h : ∀ t, old.timer = some t → t.isTyping = old.isTyping)
    (htimer : new.timer = old.timer) (hnew : new.isTyping = false) :
    ∀ t, (runEffect old new).timer = some t → t.isTyping = false := by
  intro t ht
  have := runEffect_sync old new h htimer t ht
  rw [this]
  unfold runEffect
  split <;> exact hnew

theorem elapse_typing_short (current : String) (gap : Nat) (h : gap < 500) :
    elapse gap ⟨current, true, some ⟨500, current, true⟩⟩
      = (⟨current, true, some ⟨500 - gap, current, true⟩⟩, []) := by
  exact elapseAux_wait 2 gap (⟨current, true, some ⟨500, current, true⟩⟩ : SearchBarState)
    ⟨500, current, true⟩ rfl h

/-- During a burst (gaps below 500 ms, every keystroke changing the text) no
timer fires, and each keystroke leaves a fresh 500 ms timer for its text. -/
theorem typeBurst_typing (rest : List (Nat × String)) :
    ∀ current : String, (∀ e ∈ rest, e.1 < 500) → changesText current rest = true →
      typeBurst rest ⟨current, true, some ⟨500, current, true⟩⟩
        = (⟨lastText current rest, true, some ⟨500, lastText current rest, true⟩⟩, []) := by
  induction rest with
  | nil =>
    intro current _ _
    rfl
  | cons e es ih =>
    intro current hgaps hchg
    obtain ⟨gap, text⟩ := e
    have hgap : gap < 500 := hgaps (gap, text) (List.mem_cons_self _ _)
    simp only [changesText, Bool.and_eq_true, decide_eq_true_eq] at hchg
    have hstep : handleChange text ⟨current, true, some ⟨500 - gap, current, true⟩⟩
        = ⟨text, true, some ⟨500, text, true⟩⟩ :=
      handleChange_of_ne text _ hchg.1
    simp only [typeBurst, lastText]
    rw [elapse_typing_short current gap hgap]
    simp only [hstep]
    rw [ih text (fun x hx => hgaps x (List.mem_cons_of_mem _ hx)) hchg.2]
    rfl

/-- After 500 ms of quiet the timer of the last keystroke fires once, with the
text it closed over, and leaves a timer that calls nothing. -/
theorem elapse_typing_quiet (current : String) (quiet : Nat) (h : 500 ≤ quiet) :
    (elapse quiet ⟨current, true, some ⟨500, current, true⟩⟩).2 = [current] ∧
    (elapse quiet ⟨current, true, some ⟨500, current, true⟩⟩).1.isTyping = false ∧
    ∀ t, (elapse quiet ⟨current, true, some ⟨500, current, true⟩⟩).1.timer = some t →
      t.isTyping = false := by
  have hcb : timerCallback ⟨500, current, true⟩ ⟨current, true, some ⟨500, current, true⟩⟩
      = (⟨current, false, some ⟨500, current, false⟩⟩, [current]) := by
    simp [timerCallback, runEffect]
  have hidle : ∀ t, (⟨current, false, some ⟨500, current, false⟩⟩ : SearchBarState).timer
      = some t → t.isTyping = false := by
    intro t ht
    simp only [Option.some.injEq] at ht
    rw [← ht]
  have hrest := elapseAux_idle 2 (quiet - 500) ⟨current, false, some ⟨500, current, false⟩⟩ hidle
  have hn : ¬ quiet < (⟨500, current, true⟩ : DebounceTimer).remaining := by
    show ¬ quiet < 500
    omega
  have hfire : elapse quiet ⟨current, true, some ⟨500, current, true⟩⟩
      = ((elapseAux 2 (quiet - 500) ⟨current, false, some ⟨500, current, false⟩⟩).1,
          [current] ++ (elapseAux 2 (quiet - 500)
            ⟨current, false, some ⟨500, current, false⟩⟩).2) := by
    have h1 := elapseAux_fire 2 quiet
      (⟨current, true, some ⟨500, current, true⟩⟩ : SearchBarState) ⟨500, current, true⟩ rfl hn
    rw [hcb] at h1
    exact h1
  rw [hfire]
  dsimp only
  refine ⟨?_, hrest.2.2, hrest.2.1⟩
  rw [hrest.1]
  rfl

/-- C27: the debounce of `SearchBar` as a machine with one timer slot.  Every
keystroke that changes the text replaces the pending timer by a new 500 ms
timer for the new text.  A burst of keystrokes, each less than 500 ms after the
one before, calls `onSearch` never while it lasts, and after a quiet period of
at least 500 ms exactly once, with the last text typed; later time passing
calls nothing more.  And in every state the component can reach from its first
render, a timer pending when the form is submitted, the input is cleared or the
component is torn down never calls `onSearch` afterwards. -/
theorem debounce_one_call_per_burst (s0 : SearchBarState) (first : String)
    (rest : List (Nat × String)) (quiet : Nat)
    (hfirst : first ≠ s0.query) (hgaps : ∀ e ∈ rest, e.1 < 500)
    (hchg : changesText first rest = true) (hquiet : 500 ≤ quiet) :
    (∀ (s : SearchBarState) (text : String), text ≠ s.query →
      (handleChange text s).timer = some ⟨500, text, true⟩) ∧
    (typeBurst rest (handleChange first s0)).2 = [] ∧
    (elapse quiet (typeBurst rest (handleChange first s0)).1).2 = [lastText first rest] ∧
    (typeBurst rest (handleChange first s0)).2
      ++ (elapse quiet (typeBurst rest (handleChange first s0)).1).2 = [lastText first rest] ∧
    (∀ later : Nat,
      (elapse later (elapse quiet (typeBurst rest (handleChange first s0)).1).1).2 = []) ∧
    (∀ (initialQuery : String) (events : List BarEvent) (ms : Nat),
      (elapse ms (handleSubmit (runBar (SearchBarState.mount initialQuery) events).1).1).2 = [] ∧
      (elapse ms (clearSearch (runBar (SearchBarState.mount initialQuery) events).1).1).2 = [] ∧
      (elapse ms (unmount (runBar (SearchBarState.mount initialQuery) events).1)).2 = []) := by
  have hburst : typeBurst rest (handleChange first s0)
      = (⟨lastText first rest, true, some ⟨500, lastText first rest, true⟩⟩, []) := by
    rw [handleChange_of_ne first s0 hfirst]
    exact typeBurst_typing rest first hgaps hchg
  have hq := elapse_typing_quiet (lastText first rest) quiet hquiet
  refine ⟨?_, ?_, ?_, ?_, ?_, ?_⟩
  · intro s text hne
    rw [handleChange_of_ne text s hne]
  · rw [hburst]
  · rw [hburst]
    exact hq.1
  · rw [hburst]
    exact hq.1
  · intro later
    rw [hburst]
    exact (elapseAux_idle 3 later _ hq.2.2).1
  · intro initialQuery events ms
    have hsync := runBar_sync events (SearchBarState.mount initialQuery) (mount_sync initialQuery)
    have key : ∀ s : SearchBarState, (∀ t, s.timer = some t → t.isTyping = s.isTyping) →
        (elapse ms (handleSubmit s).1).2 = [] ∧ (elapse ms (clearSearch s).1).2 = [] ∧
        (elapse ms (unmount s)).2 = [] := by
      intro s hs
      refine ⟨?_, ?_, ?_⟩
      · exact (elapseAux_idle 3 ms _
          (runEffect_idle s { s with isTyping := false } hs rfl rfl)).1
      · exact (elapseAux_idle 3 ms _
          (runEffect_idle s { s with query := "", isTyping := false } hs rfl rfl)).1
      · exact (elapseAux_idle 3 ms (unmount s) (by intro t ht; cases ht)).1
    exact key _ hsync

theorem debounce_one_call_per_burst_witness :
    "d" ≠ (SearchBarState.mount "").query ∧
    (typeBurst [(120, "du"), (300, "dun"), (499, "dune")]
      (handleChange "d" (SearchBarState.mount ""))).2
      ++ (elapse 500 (typeBurst [(120, "du"), (300, "dun"), (499, "dune")]
        (handleChange "d" (SearchBarState.mount ""))).1).2 = ["dune"] :=
  ⟨by decide,
    (debounce_one_call_per_burst (SearchBarState.mount "") "d"
      [(120, "du"), (300, "dun"), (499, "dune")] 500 (by decide) (by decide) (by decide)
      (by decide)).2.2.2.1⟩

/-! ## URL round trip -/

/-- C19 fails on the code in two ways.  With the search term `'dune'` and page
7 the two writes give `?search=dune&page=7`, which reads back as page 7, but
the reset-to-page-1 effect rewrites it at once, so the URL the controller
settles on reads back as `('dune', 1)`.  And for `n = 10^21` the text of
`n.toString()` is `'1e+21'`, which `parseInt` reads as 1, so the page read back
is 1. -/
theorem url_round_trip_breaks :
    currentPage (handlePageChange (handleSearch [] "dune") 7) = 7 ∧
    urlSearchQuery (resetEffect (handlePageChange (handleSearch [] "dune") 7)) = "dune" ∧
    currentPage (resetEffect (handlePageChange (handleSearch [] "dune") 7)) = 1 ∧
    numberToString 1000000000000000000000 = "1e+21" ∧
    currentPage (handlePageChange (handleSearch [] "") 1000000000000000000000) = 1 ∧
    ¬ (∀ (searchParams : URLSearchParams) (s : String) (n : Int), 1 ≤ n →
        urlSearchQuery (handlePageChange (handleSearch searchParams s) n) = s ∧
        currentPage (handlePageChange (handleSearch searchParams s) n) = n) := by
  refine ⟨by decide, by decide, by decide, by decide, by decide, ?_⟩
  intro h
  exact absurd (h [] "" 1000000000000000000000 (by decide)).2 (by decide)

/-- C19, amended: for every prior set of URL query parameters, every search
term `s` and every page `n` with `1 ≤ n < 10^21`, after
`updateURLParams({ search: s })` followed by
`updateURLParams({ page: n.toString() })` the derivations
`searchParams.get('search') || ''` and `parseInt(searchParams.get('page')) || 1`
give back exactly `s` and `n`; and when `s` is empty or `n` is 1 the
reset-to-page-1 effect leaves these parameters as they are, so the URL the
controller settles on reads back as `(s, n)`. -/
theorem url_round_trip (searchParams : URLSearchParams) (s : String) (n : Int)
    (hn : 1 ≤ n) (hb : n < 1000000000000000000000) :
    urlSearchQuery (handlePageChange (handleSearch searchParams s) n) = s ∧
    currentPage (handlePageChange (handleSearch searchParams s) n) = n ∧
    (s = "" ∨ n = 1 →
      resetEffect (handlePageChange (handleSearch searchParams s) n)
        = handlePageChange (handleSearch searchParams s) n) := by
  have hq : urlSearchQuery (handlePageChange (handleSearch searchParams s) n) = s := by
    rw [urlSearchQuery_handlePageChange, urlSearchQuery_handleSearch]
  have hp : currentPage (handlePageChange (handleSearch searchParams s) n) = n :=
    currentPage_handlePageChange _ n (by omega) (by omega) hb
  refine ⟨hq, hp, ?_⟩
  intro h
  apply resetEffect_idle
  rcases h with h | h
  · left
    rw [hq]
    exact h
  · right
    rw [hp]
    exact h

theorem url_round_trip_witness :
    (1 : Int) ≤ 7 ∧ (7 : Int) < 1000000000000000000000 ∧
    urlSearchQuery (handlePageChange (handleSearch [("search", "dune"), ("page", "3")] "") 7)
      = "" ∧
    currentPage (handlePageChange (handleSearch [("search", "dune"), ("page", "3")] "") 7)
      = 7 ∧
    resetEffect (handlePageChange (handleSearch [("search", "dune"), ("page", "3")] "") 7)
      = handlePageChange (handleSearch [("search", "dune"), ("page", "3")] "") 7 :=
  ⟨by decide, by decide,
    (url_round_trip [("search", "dune"), ("page", "3")] "" 7 (by decide) (by decide)).1,
    (url_round_trip [("search", "dune"), ("page", "3")] "" 7 (by decide) (by decide)).2.1,
    (url_round_trip [("search", "dune"), ("page", "3")] "" 7 (by decide) (by decide)).2.2
      (Or.inl rfl)⟩

end MovieDb
